import Mathlib

/-!
# gohtml-server: the HTML to PDF conversion core of `server/main.go`

A shallow embedding of `parseMargin`, `parsePaperSize`, `getByOption` and
`convertToPDF`, together with the part of Go's `fmt` scanner that
`fmt.Sscanf(text, "%fmm", &val)` and `fmt.Sscanf(text, "%f", &val)` execute.

Conventions of the embedding
* `float64` values are the type `F64`: a finite number read as an exact
  rational, an infinity, or NaN; rounding and the sign of zero are not modelled.
* `strconv.ParseFloat` as called by the scanner (`(*ss).convertFloat`) is a
  parameter `cf : String → Option F64` (`none` is a conversion error); the
  general theorems hold for every such function.  `decimalFloat` is its
  restriction to decimal numerals, `Inf` and `NaN`, and is used to evaluate
  concrete inputs.
* `int64` arithmetic is `Int` arithmetic wrapped to 64 bits (`wrapInt64`).
* The operating system and the browser are explicit: the filesystem is a list
  of files that is passed through `convertToPDF`, and the results of
  `os.CreateTemp`, `(*File).Write` and of every browser action are given by a
  `World`.
-/

namespace GoHtml

/-! ## `float64` values -/

/-- A value of type `float64`: a finite number (read as an exact rational), an
infinity (`neg` tells its sign), or NaN. -/
inductive F64 where
  | fin (q : ℚ)
  | inf (neg : Bool)
  | nan
deriving DecidableEq, Repr

instance (n : Nat) : OfNat F64 n := ⟨F64.fin n⟩

instance : OfScientific F64 := ⟨fun m s e => F64.fin (OfScientific.ofScientific m s e)⟩

/-- Go's `==` on `float64`: NaN equals nothing. -/
def F64.eq : F64 → F64 → Bool
  | F64.fin a, F64.fin b => decide (a = b)
  | F64.inf a, F64.inf b => decide (a = b)
  | _, _ => false

/-- Go's `/` on `float64`. -/
def F64.div : F64 → F64 → F64
  | F64.nan, _ => F64.nan
  | _, F64.nan => F64.nan
  | F64.inf _, F64.inf _ => F64.nan
  | F64.inf s, F64.fin b => F64.inf (xor s (decide (b < 0)))
  | F64.fin _, F64.inf _ => F64.fin 0
  | F64.fin a, F64.fin b =>
    if b = 0 then (if a = 0 then F64.nan else F64.inf (decide (a < 0))) else F64.fin (a / b)

instance : Div F64 := ⟨F64.div⟩

/-! ## The `fmt` scanner -/

/-- Scanner state of package fmt (type `ss`): the token buffer and the unread input. -/
structure ss where
  buf : List Char
  rs : List Char
deriving DecidableEq, Repr

/-- The table `space` of package fmt, as used by `isSpace`. -/
def isSpace (r : Char) : Bool :=
  let n := r.toNat
  (0x09 ≤ n && n ≤ 0x0d) || n == 0x20 || n == 0x85 || n == 0xa0 || n == 0x1680 ||
  (0x2000 ≤ n && n ≤ 0x200a) || (0x2028 ≤ n && n ≤ 0x2029) || n == 0x202f ||
  n == 0x205f || n == 0x3000

/-- `(*ss).SkipSpace` with `nlIsSpace = false` (the setting of `Sscanf`): skips
spaces, and fails with "unexpected newline" (`none`) at a newline. -/
def SkipSpace : List Char → Option (List Char)
  | [] => some []
  | r :: rest =>
    if r = '\r' ∧ rest.head? = some '\n' then SkipSpace rest
    else if r = '\n' then none
    else if isSpace r then SkipSpace rest
    else some (r :: rest)

/-- `(*ss).accept`: consume the next rune into the buffer when it is one of `ok`. -/
def ss.accept (s : ss) (ok : String) : Bool × ss :=
  match s.rs with
  | [] => (false, s)
  | r :: rest => if r ∈ ok.data then (true, ⟨s.buf ++ [r], rest⟩) else (false, s)

/-- The loop `for s.accept(ok) {}` on buffer `buf` and input `rs`. -/
def acceptLoop (ok : String) : List Char → List Char → ss
  | buf, [] => ⟨buf, []⟩
  | buf, r :: rest => if r ∈ ok.data then acceptLoop ok (buf ++ [r]) rest else ⟨buf, r :: rest⟩

def decimalDigits : String := "0123456789"
def hexadecimalDigits : String := "0123456789aAbBcCdDeEfF"
def sign : String := "+-"
def period : String := "."
def exponent : String := "eEpP"

/-- `(*ss).floatToken`: the longest prefix of the input that looks like a
floating-point number (possibly empty), left in `buf`. -/
def floatToken (s0 : ss) : ss :=
  let s : ss := ⟨[], s0.rs⟩
  -- NaN?
  let a1 := s.accept "nN"
  let a2 := if a1.1 then a1.2.accept "aA" else (false, a1.2)
  let a3 := if a2.1 then a2.2.accept "nN" else (false, a2.2)
  if a3.1 then a3.2 else
  -- leading sign?
  let s := (a3.2.accept sign).2
  -- Inf?
  let b1 := s.accept "iI"
  let b2 := if b1.1 then b1.2.accept "nN" else (false, b1.2)
  let b3 := if b2.1 then b2.2.accept "fF" else (false, b2.2)
  if b3.1 then b3.2 else
  let h1 := b3.2.accept "0"
  let h2 := if h1.1 then h1.2.accept "xX" else (false, h1.2)
  let digits := if h2.1 then hexadecimalDigits ++ "_" else decimalDigits ++ "_"
  let exp := if h2.1 then "pP" else exponent
  -- digits?
  let s := acceptLoop digits h2.2.buf h2.2.rs
  -- decimal point?
  let p := s.accept period
  -- fraction?
  let s := if p.1 then acceptLoop digits p.2.buf p.2.rs else p.2
  -- exponent?
  let e := s.accept exp
  if e.1 then
    let s := (e.2.accept sign).2
    acceptLoop (decimalDigits ++ "_") s.buf s.rs
  else e.2

/-- `(*ss).scanOne` for verb `f` and an operand of type `*float64`: skip space,
fail at end of input, read the float token and convert it.  `none` is a panic
of the scanner (nothing is stored through the pointer); `some (v, rest)` stores
`v` and leaves `rest` unread. -/
def scanOne (cf : String → Option F64) (rs : List Char) : Option (F64 × List Char) :=
  match SkipSpace rs with
  | none => none
  | some [] => none
  | some (r :: rest) =>
    let s := floatToken ⟨[], r :: rest⟩
    match cf (String.mk s.buf) with
    | none => none
    | some v => some (v, s.rs)

/-- What a call `fmt.Sscanf(str, format, &val)` leaves behind: the value of
`val`, the number of operands processed and the error. -/
structure Scanned where
  val : F64
  n : Nat
  err : Option String
deriving DecidableEq, Repr

/-- The verb `%f` inside `(*ss).doScanf`, when `n` operands have been
processed and one operand was passed: skip space, check that an operand is
left, and scan it.  An error is a panic of the scanner, caught by `Sscanf` and
returned as its error; the texts of the errors are abridged, and "scan error"
stands for whichever error `scanOne` raised. -/
def scanVerb (cf : String → Option F64) (rs : List Char) (n : Nat) : Except String (F64 × List Char) :=
  match SkipSpace rs with
  | none => Except.error "unexpected newline"
  | some rs1 =>
    if 1 ≤ n then Except.error "too few operands for format"
    else
      match scanOne cf rs1 with
      | none => Except.error "scan error"
      | some r => Except.ok r

/-- A literal rune `c` of the format inside `(*ss).advance`: the next input
rune must be `c`. -/
def matchLiteral (c : Char) (rs : List Char) : Except String (List Char) :=
  match rs with
  | [] => Except.error "unexpected EOF"
  | r :: rest => if r = c then Except.ok rest else Except.error "input does not match format"

/-- `(*ss).doScanf` with the single operand `&val`, for formats built from the
verb `%f` and literal runes that are neither spaces nor `%` (the only formats
this program uses; every other format item stops the scan with an error).
The operand is assigned as soon as its verb has been scanned, before the
rest of the format is matched. -/
def doScanf (cf : String → Option F64) : List Char → List Char → Nat → F64 → Scanned
  | [], _, n, val => ⟨val, n, if n < 1 then some "too many operands" else none⟩
  | [c], rs, n, val =>
    if c = '%' then ⟨val, n, some "missing verb: % at end of format string"⟩
    else if isSpace c then ⟨val, n, some "format item outside the modelled fragment"⟩
    else
      match matchLiteral c rs with
      | Except.error e => ⟨val, n, some e⟩
      | Except.ok rest => doScanf cf [] rest n val
  | c :: v :: fmt, rs, n, val =>
    if c = '%' then
      if v = 'f' then
        match scanVerb cf rs n with
        | Except.error e => ⟨val, n, some e⟩
        | Except.ok (x, rs2) => doScanf cf fmt rs2 (n + 1) x
      else ⟨val, n, some "format item outside the modelled fragment"⟩
    else if isSpace c then ⟨val, n, some "format item outside the modelled fragment"⟩
    else
      match matchLiteral c rs with
      | Except.error e => ⟨val, n, some e⟩
      | Except.ok rest => doScanf cf (v :: fmt) rest n val

/-- `fmt.Sscanf(str, format, &val)` where `val` holds `val0` before the call. -/
def Sscanf (cf : String → Option F64) (str : String) (format : String) (val0 : F64) : Scanned :=
  doScanf cf format.data str.data 0 val0

/-! ## Decimal numerals -/

/-- Reads a run of decimal digits: the number read so far, how many digits
were read, and the rest of the text. -/
def readDigits : List Char → Nat → Nat → Nat × Nat × List Char
  | [], acc, k => (acc, k, [])
  | c :: cs, acc, k =>
    if '0' ≤ c ∧ c ≤ '9' then readDigits cs (acc * 10 + (c.toNat - 48)) (k + 1)
    else (acc, k, c :: cs)

/-- Strips an optional sign: whether the number is negative, and the rest. -/
def readSign : List Char → Bool × List Char
  | [] => (false, [])
  | c :: cs => if c = '-' then (true, cs) else if c = '+' then (false, cs) else (false, c :: cs)

/-- An exponent `[sign] digits` that fills the whole text, as an integer. -/
def readExponent (cs : List Char) : Option Int :=
  let es := readSign cs
  let e := readDigits es.2 0 0
  if e.2.1 = 0 ∨ e.2.2 ≠ [] then none
  else if es.1 then some (-(e.1 : Int)) else some (e.1 : Int)

/-- What `(*ss).convertFloat` returns for the tokens `NaN` and `[sign] Inf` (in
any case) and for a decimal numeral `[sign] digits [. digits]` followed by
nothing, by a decimal exponent `e [sign] digits` or by a binary exponent
`p [sign] digits`, up to rounding; `none` for every other token (hexadecimal
numerals and numerals with underscores are not covered, a malformed token is a
conversion error).  Used to evaluate the scanner on concrete inputs. -/
def decimalFloat (tok : String) : Option F64 :=
  if tok.data.map Char.toLower = ['n', 'a', 'n'] then some F64.nan
  else
    let s := readSign tok.data
    if s.2.map Char.toLower = ['i', 'n', 'f'] then some (F64.inf s.1)
    else
      let i := readDigits s.2 0 0
      let f := match i.2.2 with
        | [] => (0, 0, [])
        | c :: cs => if c = '.' then readDigits cs 0 0 else (0, 0, c :: cs)
      if i.2.1 + f.2.1 = 0 then none
      else
        let mant : ℚ := ((i.1 * 10 ^ f.2.1 + f.1 : Nat) : ℚ) / ((10 ^ f.2.1 : Nat) : ℚ)
        let mant : ℚ := if s.1 then -mant else mant
        match f.2.2 with
        | [] => some (F64.fin mant)
        | c :: cs =>
          if c = 'e' ∨ c = 'E' then
            match readExponent cs with
            | none => none
            | some e => some (F64.fin (mant * (10 : ℚ) ^ e))
          else if c = 'p' ∨ c = 'P' then
            match readExponent cs with
            | none => none
            | some e => some (F64.fin (mant * (2 : ℚ) ^ e))
          else none

/-! ## Page layout parameters -/

/-- `parseMargin` of `server/main.go`. -/
def parseMargin (cf : String → Option F64) (margin : String) (defaultVal : F64) : F64 :=
  if margin = "" then defaultVal / 25.4
  else
    let val : F64 := 0
    let val := (Sscanf cf margin "%fmm" val).val
    let val := if F64.eq val 0 then (Sscanf cf margin "%f" val).val else val
    val / 25.4

/-- `parsePaperSize` of `server/main.go`. -/
def parsePaperSize (cf : String → Option F64) (size : String) (defaultVal : F64) : F64 :=
  if size = "" then defaultVal
  else
    let val : F64 := 0
    let val := (Sscanf cf size "%fmm" val).val
    if F64.eq val 0 then
      let val := (Sscanf cf size "%f" val).val
      val
    else val / 25.4

/-- The selector strategies of chromedp that the program uses. -/
inductive QueryOption where
  | ByID
  | BySearch
  | ByQuery
deriving DecidableEq, Repr

/-- `getByOption` of `server/main.go`. -/
def getByOption (selBy : String) : QueryOption :=
  if selBy = "id" then QueryOption.ByID
  else if selBy = "xpath" then QueryOption.BySearch
  else if selBy = "css" then QueryOption.ByQuery
  else QueryOption.ByQuery

/-! ## Requests -/

/-- A Go byte slice `[]byte`; `none` is the nil slice. -/
abbrev ByteSlice := Option (List Nat)

/-- Go's `len` on a byte slice. -/
def len (b : ByteSlice) : Nat :=
  match b with
  | none => 0
  | some l => l.length

structure PageParameters where
  PaperWidth : String
  PaperHeight : String
  PageSize : Option String
  Orientation : String
  MarginTop : String
  MarginBottom : String
  MarginLeft : String
  MarginRight : String
deriving DecidableEq, Repr

structure BySelector where
  Selector : String
  By : String
deriving DecidableEq, Repr

structure RenderParameters where
  WaitTime : Int
  WaitReady : List BySelector
  WaitVisible : List BySelector
deriving DecidableEq, Repr

structure generatePDFRequestV1 where
  Content : List Nat
  ContentType : String
  ContentURL : String
  Method : String
  TimeoutDuration : Int
  PageParameters : PageParameters
  RenderParameters : RenderParameters
deriving DecidableEq, Repr

/-! ## Durations -/

/-- Two's-complement wrap of an integer to the range of `int64`. -/
def wrapInt64 (x : Int) : Int := (x + 2 ^ 63) % 2 ^ 64 - 2 ^ 63

/-- Whether an integer is a value of type `int64`. -/
def isInt64 (x : Int) : Prop := -(2 ^ 63) ≤ x ∧ x < 2 ^ 63

instance (x : Int) : Decidable (isInt64 x) := by unfold isInt64; infer_instance

/-- `time.Millisecond`, in nanoseconds. -/
def Millisecond : Int := 1000000

/-- `time.Second`, in nanoseconds. -/
def Second : Int := 1000 * Millisecond

/-- The deadline duration computed at the start of `convertToPDF`, a
`time.Duration` (nanoseconds, `int64`). -/
def timeout (req : generatePDFRequestV1) : Int :=
  if req.TimeoutDuration > 0 then wrapInt64 (req.TimeoutDuration * Millisecond)
  else 30 * Second

/-! ## Browser actions -/

/-- The fields of `page.PrintToPDFParams` that `convertToPDF` sets. -/
structure PrintToPDFParams where
  PaperWidth : F64
  PaperHeight : F64
  MarginTop : F64
  MarginBottom : F64
  MarginLeft : F64
  MarginRight : F64
  Landscape : Bool
  PrintBackground : Bool
deriving DecidableEq, Repr

/-- The chromedp actions `convertToPDF` puts in its task list.  `ActionFunc` is
the closure that runs `pdfParams.Do` and assigns its bytes to `pdfBuffer`. -/
inductive Action where
  | Navigate (urlstr : String)
  | WaitReady (sel : String) (opt : QueryOption)
  | WaitVisible (sel : String) (opt : QueryOption)
  | Sleep (d : Int)
  | ActionFunc (pdfParams : PrintToPDFParams)
deriving DecidableEq, Repr

/-- The print parameters built by `convertToPDF` (the section "Parse parameters"). -/
def pdfParams (cf : String → Option F64) (req : generatePDFRequestV1) : PrintToPDFParams :=
  let marginTop := parseMargin cf req.PageParameters.MarginTop 10
  let marginBottom := parseMargin cf req.PageParameters.MarginBottom 10
  let marginLeft := parseMargin cf req.PageParameters.MarginLeft 10
  let marginRight := parseMargin cf req.PageParameters.MarginRight 10
  let paperWidth := parsePaperSize cf req.PageParameters.PaperWidth 8.5
  let paperHeight := parsePaperSize cf req.PageParameters.PaperHeight 11
  let landscape : Bool := req.PageParameters.Orientation = "landscape"
  { PaperWidth := paperWidth, PaperHeight := paperHeight, MarginTop := marginTop,
    MarginBottom := marginBottom, MarginLeft := marginLeft, MarginRight := marginRight,
    Landscape := landscape, PrintBackground := true }

/-- The task list built by `convertToPDF` for the navigation target `htmlURL`. -/
def buildTasks (cf : String → Option F64) (req : generatePDFRequestV1) (htmlURL : String) :
    List Action :=
  let tasks : List Action := []
  let tasks := tasks ++ [Action.Navigate htmlURL]
  let tasks := tasks ++ [Action.WaitReady "body" QueryOption.ByQuery]
  let tasks :=
    if req.RenderParameters.WaitTime > 0 then
      tasks ++ [Action.Sleep (wrapInt64 (req.RenderParameters.WaitTime * Millisecond))]
    else tasks
  let tasks := req.RenderParameters.WaitReady.foldl
    (fun tasks sel => tasks ++ [Action.WaitReady sel.Selector (getByOption sel.By)]) tasks
  let tasks := req.RenderParameters.WaitVisible.foldl
    (fun tasks sel => tasks ++ [Action.WaitVisible sel.Selector (getByOption sel.By)]) tasks
  tasks ++ [Action.ActionFunc (pdfParams cf req)]

/-! ## The operating system and the browser -/

/-- A file: its name and its contents. -/
structure File where
  name : String
  data : List Nat
deriving DecidableEq, Repr

/-- The filesystem: the files that exist. -/
abbrev FS := List File

/-- The behaviour of one browser session: whether the session can be started,
the error (if any) of the action run at a given position, and the bytes and
error returned by `pdfParams.Do` at a given position. -/
structure Browser where
  start : Option String
  step : Nat → Action → Option String
  print : Nat → PrintToPDFParams → ByteSlice × Option String

/-- The behaviour of everything outside the program: `os.CreateTemp` (the name
of the new file, or an error), `(*File).Write` (how many bytes were written,
and an error), and the browser session obtained for a given deadline on a given
filesystem. -/
structure World where
  CreateTemp : FS → Except String String
  Write : String → List Nat → Nat × Option String
  browser : Int → FS → Browser

/-- The effect of a successful `os.CreateTemp`: a new empty file. -/
def FS.create (fs : FS) (name : String) : FS := fs ++ [⟨name, []⟩]

/-- The effect of `(*File).Write` on a file that was empty. -/
def FS.write (fs : FS) (name : String) (data : List Nat) : FS :=
  fs.map (fun f => if f.name = name then { f with data := data } else f)

/-- The effect of `os.Remove`: the named file no longer exists. -/
def FS.Remove (fs : FS) (name : String) : FS := fs.filter (fun f => f.name ≠ name)

/-- The `Do` method of an action at position `i` of the run; the second
argument is the variable `pdfBuffer` captured by the print closure. -/
def Action.Do (b : Browser) (i : Nat) (pdfBuffer : ByteSlice) : Action → ByteSlice × Option String
  | Action.ActionFunc p => b.print i p
  | Action.Navigate u => (pdfBuffer, b.step i (Action.Navigate u))
  | Action.WaitReady s o => (pdfBuffer, b.step i (Action.WaitReady s o))
  | Action.WaitVisible s o => (pdfBuffer, b.step i (Action.WaitVisible s o))
  | Action.Sleep d => (pdfBuffer, b.step i (Action.Sleep d))

/-- `chromedp.Tasks.Do`: run the actions in order and stop at the first error. -/
def Tasks.Do (b : Browser) : List Action → Nat → ByteSlice → ByteSlice × Option String
  | [], _, pdfBuffer => (pdfBuffer, none)
  | a :: rest, i, pdfBuffer =>
    match a.Do b i pdfBuffer with
    | (buf, some e) => (buf, some e)
    | (buf, none) => Tasks.Do b rest (i + 1) buf

/-- `chromedp.Run`: start the session, then run the tasks. -/
def Run (b : Browser) (tasks : List Action) (pdfBuffer : ByteSlice) : ByteSlice × Option String :=
  match b.start with
  | some e => (pdfBuffer, some e)
  | none => Tasks.Do b tasks 0 pdfBuffer

/-- What a call of `convertToPDF` leaves behind: its two results, the
filesystem when it returns, and two observations of its run, the deadline it
computed and the task list it handed to `chromedp.Run` (`none` when it returned
before building one). -/
structure Outcome where
  pdf : ByteSlice
  err : Option String
  fs : FS
  deadline : Int
  tasks : Option (List Action)
deriving DecidableEq, Repr

/-- The part of `convertToPDF` after the navigation target is known: parse the
parameters, build the task list, run it, and return the buffer only when the
run reported no error. -/
def convertFrom (cf : String → Option F64) (w : World) (fs : FS) (req : generatePDFRequestV1)
    (htmlURL : String) : Outcome :=
  let pdfBuffer : ByteSlice := none
  let tasks := buildTasks cf req htmlURL
  match Run (w.browser (timeout req) fs) tasks pdfBuffer with
  | (_, some e) => ⟨none, some ("chromedp run: " ++ e), fs, timeout req, some tasks⟩
  | (buf, none) => ⟨buf, none, fs, timeout req, some tasks⟩

/-- `convertToPDF` of `server/main.go`, on the filesystem `fs` in the world `w`.
The deferred `os.Remove` runs on every return that follows the creation of the
temporary file. -/
def convertToPDF (cf : String → Option F64) (w : World) (fs : FS) (req : generatePDFRequestV1) :
    Outcome :=
  if req.Method = "web" then
    let htmlURL := req.ContentURL
    convertFrom cf w fs req htmlURL
  else
    match w.CreateTemp fs with
    | Except.error e => ⟨none, some ("create temp HTML: " ++ e), fs, timeout req, none⟩
    | Except.ok name =>
      let fs1 := fs.create name
      let wr := w.Write name req.Content
      let fs2 := fs1.write name (req.Content.take wr.1)
      match wr.2 with
      | some e => ⟨none, some ("write HTML: " ++ e), fs2.Remove name, timeout req, none⟩
      | none =>
        let htmlURL := "file://" ++ name
        let r := convertFrom cf w fs2 req htmlURL
        { r with fs := r.fs.Remove name }

/-! ## Notions used in the statements -/

/-- Runes that no `accept` call of `floatToken` consumes. -/
def inert (c : Char) : Bool := !("nNaAiIfF+-xX.pP_0123456789bBcCdDeE".data.contains c)

/-- The state `s` with `t` appended to its unread input. -/
def ss.ext (s : ss) (t : List Char) : ss := ⟨s.buf, s.rs ++ t⟩

/-- The text `t` is a bare numeral of `n`: the scanner's float token of `t` is
all of `t`, and it converts to `n`. -/
def isTextOf (cf : String → Option F64) (t : String) (n : F64) : Prop :=
  t ≠ "" ∧ floatToken ⟨[], t.data⟩ = ⟨t.data, []⟩ ∧ cf t = some n

instance (cf : String → Option F64) (t : String) (n : F64) : Decidable (isTextOf cf t n) := by
  unfold isTextOf; infer_instance

/-- A suffix that cannot extend a float token: empty, or starting with an inert rune. -/
def inertSuffix (sfx : List Char) : Bool :=
  match sfx with
  | [] => true
  | c :: _ => inert c

/-- The part of `floatToken` after the sign has been read: `Inf`, the base
mark, the digits, the fraction and the exponent. -/
def floatTokenTail (s : ss) : ss :=
  let b1 := s.accept "iI"
  let b2 := if b1.1 then b1.2.accept "nN" else (false, b1.2)
  let b3 := if b2.1 then b2.2.accept "fF" else (false, b2.2)
  if b3.1 then b3.2 else
  let h1 := b3.2.accept "0"
  let h2 := if h1.1 then h1.2.accept "xX" else (false, h1.2)
  let digits := if h2.1 then hexadecimalDigits ++ "_" else decimalDigits ++ "_"
  let exp := if h2.1 then "pP" else exponent
  let s := acceptLoop digits h2.2.buf h2.2.rs
  let p := s.accept period
  let s := if p.1 then acceptLoop digits p.2.buf p.2.rs else p.2
  let e := s.accept exp
  if e.1 then
    let s := (e.2.accept sign).2
    acceptLoop (decimalDigits ++ "_") s.buf s.rs
  else e.2

/-- Whether a rune is a decimal digit. -/
def isDigit (c : Char) : Bool := decimalDigits.data.contains c

/-- Whether an optional rune is a sign: nothing, `+` or `-`. -/
def isSign (sg : Option Char) : Bool := sg == none || sg == some '+' || sg == some '-'

/-- The text of a fraction: nothing, or a period followed by the digits `fp`. -/
def fractionText : Option (List Char) → List Char
  | none => []
  | some fp => '.' :: fp

/-- The text of an exponent: nothing, or the mark `m`, an optional sign `es`
and the digits `ed`. -/
def exponentText : Option (Char × Option Char × List Char) → List Char
  | none => []
  | some (m, es, ed) => m :: (es.toList ++ ed)

/-- The text of a decimal numeral: an optional sign `sg`, the digits `ip` of
the integer part, the fraction `fr` and the exponent `ex`. -/
def numeralText (sg : Option Char) (ip : List Char) (fr : Option (List Char))
    (ex : Option (Char × Option Char × List Char)) : List Char :=
  sg.toList ++ ip ++ fractionText fr ++ exponentText ex

/-- The parts `sg`, `ip`, `fr`, `ex` form a decimal numeral: the sign is `+`, `-`
or absent; the integer part and the fraction consist of decimal digits and
have at least one digit between them; the exponent, if any, is one of the
marks `e E p P`, an optional sign and at least one decimal digit. -/
def isNumeral (sg : Option Char) (ip : List Char) (fr : Option (List Char))
    (ex : Option (Char × Option Char × List Char)) : Bool :=
  isSign sg && ip.all isDigit &&
    (match fr with
    | none => !ip.isEmpty
    | some fp => fp.all isDigit && !(ip.isEmpty && fp.isEmpty)) &&
    (match ex with
    | none => true
    | some (m, es, ed) => exponent.data.contains m && isSign es && !ed.isEmpty && ed.all isDigit)

/-- A suffix that does not continue a decimal numeral: it is empty, or its
first rune is not a digit, an underscore, a period or one of
`e E p P x X` (so `mm`, `in`, `cm` and the empty suffix qualify, `pt` and `em`
do not). -/
def unitSuffix (sfx : List Char) : Bool :=
  match sfx with
  | [] => true
  | c :: _ => !("0123456789_.eEpPxX".data.contains c)

/-! ## Example inputs -/

/-- A request with inline content, a timeout of 5000 ms, empty page parameters,
and the render parameters `waitTime=100`, `waitReady=[("#a", id)]`,
`waitVisible=[("#b", css)]`. -/
def exampleRequest : generatePDFRequestV1 :=
  { Content := [60, 112, 62], ContentType := "text/html", ContentURL := "", Method := "html",
    TimeoutDuration := 5000,
    PageParameters :=
      { PaperWidth := "", PaperHeight := "", PageSize := none, Orientation := "",
        MarginTop := "", MarginBottom := "", MarginLeft := "", MarginRight := "" },
    RenderParameters :=
      { WaitTime := 100, WaitReady := [⟨"#a", "id"⟩], WaitVisible := [⟨"#b", "css"⟩] } }

/-- The same request for a remote page. -/
def exampleWebRequest : generatePDFRequestV1 :=
  { exampleRequest with Method := "web", ContentURL := "https://example.org/" }

/-- The same request with a timeout of 9223372036855 ms. -/
def exampleLongRequest : generatePDFRequestV1 :=
  { exampleRequest with TimeoutDuration := 9223372036855 }

/-- A world in which everything succeeds: the temporary file is
`/tmp/unihtml-1.html`, all bytes are written, and the browser prints four bytes. -/
def exampleWorld : World :=
  { CreateTemp := fun _ => Except.ok "/tmp/unihtml-1.html",
    Write := fun _ data => (data.length, none),
    browser := fun _ _ =>
      { start := none, step := fun _ _ => none, print := fun _ _ => (some [37, 80, 68, 70], none) } }

/-- A world in which the print step hands back two bytes together with an error. -/
def exampleFailingWorld : World :=
  { exampleWorld with
    browser := fun _ _ =>
      { start := none, step := fun _ _ => none,
        print := fun _ _ => (some [37, 80], some "context deadline exceeded") } }

/-- A world in which only one byte of the content can be written. -/
def exampleFullDiskWorld : World :=
  { exampleWorld with Write := fun _ _ => (1, some "no space left on device") }

/-- A filesystem with one file. -/
def exampleFS : FS := [⟨"/etc/hosts", [49, 50, 55]⟩]

/-! ## `float64` values: lemmas -/

theorem F64.ofNat_def (n : Nat) : (OfNat.ofNat n : F64) = F64.fin (n : ℚ) := rfl

theorem F64.ofScientific_def (m : Nat) (s : Bool) (e : Nat) :
    (OfScientific.ofScientific m s e : F64) = F64.fin (OfScientific.ofScientific m s e) := rfl

theorem F64.div_def (a b : F64) : a / b = F64.div a b := rfl

theorem F64.zero_def : (0 : F64) = F64.fin 0 := by
  rw [F64.ofNat_def]; norm_num

theorem F64.eq_zero (v : F64) : F64.eq v 0 = true ↔ v = 0 := by
  rw [F64.zero_def]
  cases v <;> simp [F64.eq]

theorem F64.zero_div : (0 : F64) / 25.4 = 0 := by
  rw [F64.zero_def, F64.ofScientific_def, F64.div_def]
  simp only [F64.div]
  norm_num

theorem F64.fin_div (a b : ℚ) (hb : b ≠ 0) : F64.fin a / F64.fin b = F64.fin (a / b) := by
  rw [F64.div_def]
  simp [F64.div, hb]

/-! ## The scanner: lemmas -/

theorem mem_of_not_inert (c : Char) (hc : ¬ inert c = true) :
    c ∈ "nNaAiIfF+-xX.pP_0123456789bBcCdDeE".data := by
  apply List.mem_of_elem_eq_true
  cases h : List.elem c "nNaAiIfF+-xX.pP_0123456789bBcCdDeE".data with
  | true => rfl
  | false =>
    exfalso; apply hc
    unfold inert
    rw [show "nNaAiIfF+-xX.pP_0123456789bBcCdDeE".data.contains c
      = List.elem c "nNaAiIfF+-xX.pP_0123456789bBcCdDeE".data from rfl, h]
    rfl


theorem accept_append (ok : String) (buf rs : List Char) (c : Char) (sfx : List Char)
    (hc : c ∉ ok.data) :
    ss.accept ⟨buf, rs ++ c :: sfx⟩ ok =
      ((ss.accept ⟨buf, rs⟩ ok).1,
        ⟨(ss.accept ⟨buf, rs⟩ ok).2.buf, (ss.accept ⟨buf, rs⟩ ok).2.rs ++ c :: sfx⟩) := by
  cases rs with
  | nil => simp [ss.accept, hc]
  | cons r rest =>
    by_cases h : r ∈ ok.data <;> simp [ss.accept, h]

theorem acceptLoop_append (ok : String) (c : Char) (sfx : List Char) (hc : c ∉ ok.data) :
    ∀ (rs buf : List Char), acceptLoop ok buf (rs ++ c :: sfx) =
      ⟨(acceptLoop ok buf rs).buf, (acceptLoop ok buf rs).rs ++ c :: sfx⟩ := by
  intro rs
  induction rs with
  | nil => intro buf; simp [acceptLoop, hc]
  | cons r rest ih =>
    intro buf
    by_cases h : r ∈ ok.data
    · simp [acceptLoop, h, ih]
    · simp [acceptLoop, h]


theorem accept_ext (ok : String) (s : ss) (c : Char) (sfx : List Char) (hc : c ∉ ok.data) :
    (s.ext (c :: sfx)).accept ok = ((s.accept ok).1, (s.accept ok).2.ext (c :: sfx)) := by
  cases s with
  | mk buf rs => exact accept_append ok buf rs c sfx hc

theorem and_ext (b y : Bool) (x : Bool × ss) (s : ss) (t : List Char) :
    (if b = true then (x.1, x.2.ext t) else (y, s.ext t)) =
      ((if b = true then x else (y, s)).1, (if b = true then x else (y, s)).2.ext t) := by
  cases b <;> rfl

theorem loop_ext (ok : String) (s : ss) (c : Char) (sfx : List Char) (hc : c ∉ ok.data) :
    acceptLoop ok (s.ext (c :: sfx)).buf (s.ext (c :: sfx)).rs =
      (acceptLoop ok s.buf s.rs).ext (c :: sfx) := by
  cases s with
  | mk buf rs => exact acceptLoop_append ok c sfx hc rs buf

theorem ite_ext (b : Bool) (s1 s2 : ss) (t : List Char) :
    (if b = true then s1.ext t else s2.ext t) = (if b = true then s1 else s2).ext t := by
  cases b <;> rfl

theorem not_mem_of_inert (l : List Char) (c : Char) (hl : l.all (fun x => !inert x) = true)
    (hc : inert c = true) : c ∉ l := by
  intro h
  have := List.all_eq_true.mp hl c h
  simp [hc] at this

theorem floatToken_ext (s0 : ss) (c : Char) (sfx : List Char) (hc : inert c = true) :
    floatToken (s0.ext (c :: sfx)) = (floatToken s0).ext (c :: sfx) := by
  have m1 : c ∉ "nN".data := not_mem_of_inert _ c (by decide) hc
  have m2 : c ∉ "aA".data := not_mem_of_inert _ c (by decide) hc
  have m3 : c ∉ sign.data := not_mem_of_inert _ c (by decide) hc
  have m4 : c ∉ "iI".data := not_mem_of_inert _ c (by decide) hc
  have m5 : c ∉ "fF".data := not_mem_of_inert _ c (by decide) hc
  have m6 : c ∉ "0".data := not_mem_of_inert _ c (by decide) hc
  have m7 : c ∉ "xX".data := not_mem_of_inert _ c (by decide) hc
  have m8 : c ∉ period.data := not_mem_of_inert _ c (by decide) hc
  have m11 : c ∉ (decimalDigits ++ "_").data := not_mem_of_inert _ c (by decide) hc
  have m13 : ∀ b : Bool,
      c ∉ (if b = true then hexadecimalDigits ++ "_" else decimalDigits ++ "_").data := by
    intro b; cases b <;> exact not_mem_of_inert _ c (by decide) hc
  have m14 : ∀ b : Bool, c ∉ (if b = true then "pP" else exponent).data := by
    intro b; cases b <;> exact not_mem_of_inert _ c (by decide) hc
  have e0 : (⟨[], (s0.ext (c :: sfx)).rs⟩ : ss) = (⟨[], s0.rs⟩ : ss).ext (c :: sfx) := rfl
  unfold floatToken
  simp only [e0]
  simp only [accept_ext _ _ _ _ m1, accept_ext _ _ _ _ m2, and_ext,
    accept_ext _ _ _ _ m3, accept_ext _ _ _ _ m4, accept_ext _ _ _ _ m5,
    accept_ext _ _ _ _ m6, accept_ext _ _ _ _ m7, loop_ext _ _ _ _ (m13 _),
    accept_ext _ _ _ _ m8, accept_ext _ _ _ _ (m14 _), loop_ext _ _ _ _ m11, ite_ext]


theorem inert_of_isSpace (c : Char) (h : isSpace c = true) : inert c = true := by
  by_contra hc
  have hc2 := mem_of_not_inert c hc
  have hall : ("nNaAiIfF+-xX.pP_0123456789bBcCdDeE".data).all (fun x => !isSpace x) = true := by
    decide
  have := List.all_eq_true.mp hall c hc2
  simp [h] at this

theorem floatToken_empty (b : List Char) : floatToken ⟨b, []⟩ = ⟨[], []⟩ := by
  simp [floatToken, ss.accept, acceptLoop]

theorem floatToken_inert_head (b : List Char) (c : Char) (r : List Char) (hc : inert c = true) :
    floatToken ⟨b, c :: r⟩ = ⟨[], c :: r⟩ := by
  have h := floatToken_ext ⟨b, []⟩ c r hc
  rw [floatToken_empty] at h
  simpa [ss.ext] using h

theorem SkipSpace_cons (c : Char) (r : List Char) (hc : isSpace c = false) :
    SkipSpace (c :: r) = some (c :: r) := by
  have h1 : c ≠ '\r' := by rintro rfl; revert hc; decide
  have h2 : c ≠ '\n' := by rintro rfl; revert hc; decide
  simp [SkipSpace, h1, h2, hc]

theorem isTextOf_head (cf : String → Option F64) (t : String) (n : F64) (h : isTextOf cf t n) :
    ∃ c r, t.data = c :: r ∧ isSpace c = false := by
  obtain ⟨hne, htok, _⟩ := h
  cases hd : t.data with
  | nil =>
    exfalso; apply hne
    cases t with
    | mk d => simp at hd; subst hd; rfl
  | cons c r =>
    refine ⟨c, r, rfl, ?_⟩
    by_contra hsp
    have hsp2 : isSpace c = true := by simpa using hsp
    have := floatToken_inert_head [] c r (inert_of_isSpace c hsp2)
    rw [hd] at htok
    rw [this] at htok
    simp at htok

theorem scanOne_text (cf : String → Option F64) (t : String) (n : F64) (sfx : List Char)
    (h : isTextOf cf t n) (hs : inertSuffix sfx = true) :
    SkipSpace (t.data ++ sfx) = some (t.data ++ sfx) ∧
      scanOne cf (t.data ++ sfx) = some (n, sfx) := by
  obtain ⟨c, r, hd, hsp⟩ := isTextOf_head cf t n h
  obtain ⟨_, htok, hcf⟩ := h
  have hskip : SkipSpace (t.data ++ sfx) = some (t.data ++ sfx) := by
    rw [hd]; exact SkipSpace_cons c (r ++ sfx) hsp
  refine ⟨hskip, ?_⟩
  have htok2 : floatToken ⟨[], t.data ++ sfx⟩ = ⟨t.data, sfx⟩ := by
    cases sfx with
    | nil => simpa using htok
    | cons x xs =>
      have hx : inert x = true := by simpa [inertSuffix] using hs
      have := floatToken_ext ⟨[], t.data⟩ x xs hx
      rw [htok] at this
      simpa [ss.ext] using this
  unfold scanOne
  rw [hskip]
  rw [hd] at htok2 ⊢
  simp only [List.cons_append]
  rw [show c :: (r ++ sfx) = c :: r ++ sfx from rfl, htok2]
  have : String.mk (c :: r) = t := by
    cases t with
    | mk d => simp at hd; subst hd; rfl
  simp [this, hcf]

theorem Sscanf_mm_val (cf : String → Option F64) (s : String) (v0 : F64) :
    (Sscanf cf s "%fmm" v0).val = (Sscanf cf s "%f" v0).val := by
  have hm1 : ('m' = '%') = False := by decide
  have hm2 : isSpace 'm' = false := by decide
  have hlit : ∀ (rs : List Char) (x : F64), (doScanf cf ['m', 'm'] rs 1 x).val = x := by
    intro rs x
    rw [doScanf]
    simp only [hm1, hm2, if_false]
    cases matchLiteral 'm' rs with
    | error e => rfl
    | ok rest =>
      simp only []
      rw [doScanf]
      simp only [hm1, hm2, if_false]
      cases matchLiteral 'm' rest with
      | error e => rfl
      | ok rest => simp [doScanf]
  have e1 : "%fmm".data = ['%', 'f', 'm', 'm'] := rfl
  have e2 : "%f".data = ['%', 'f'] := rfl
  unfold Sscanf
  rw [e1, e2, doScanf, doScanf]
  simp only [if_true]
  cases scanVerb cf s.data 0 with
  | error e => rfl
  | ok p =>
    obtain ⟨x, rs2⟩ := p
    show (doScanf cf ['m', 'm'] rs2 1 x).val = (doScanf cf [] rs2 1 x).val
    rw [hlit, doScanf]


theorem Sscanf_text (cf : String → Option F64) (t : String) (n : F64) (sfx : String) (v0 : F64)
    (h : isTextOf cf t n) (hs : inertSuffix sfx.data = true) :
    (Sscanf cf (t ++ sfx) "%f" v0).val = n := by
  obtain ⟨hskip, hone⟩ := scanOne_text cf t n sfx.data h hs
  have e2 : "%f".data = ['%', 'f'] := rfl
  unfold Sscanf
  rw [e2, doScanf]
  simp only [if_true, String.data_append, scanVerb, hskip, hone]
  simp [doScanf]

theorem parseMargin_eq (cf : String → Option F64) (s : String) (d : F64) (hs : s ≠ "") :
    parseMargin cf s d = (Sscanf cf s "%f" 0).val / 25.4 := by
  unfold parseMargin
  simp only [hs, if_false, Sscanf_mm_val]
  split_ifs with h
  · have h0 := (F64.eq_zero _).mp h
    rw [h0, h0]
  · rfl

theorem parsePaperSize_eq (cf : String → Option F64) (s : String) (d : F64) (hs : s ≠ "") :
    parsePaperSize cf s d = (Sscanf cf s "%f" 0).val / 25.4 := by
  unfold parsePaperSize
  simp only [hs, if_false, Sscanf_mm_val]
  split_ifs with h
  · have h0 := (F64.eq_zero _).mp h
    rw [h0, h0, F64.zero_div]
  · rfl


/-! ## Page layout parameters: lemmas -/

theorem append_mm_ne (t : String) : t ++ "mm" ≠ "" := by
  intro h
  have := congrArg String.data h
  simp at this

theorem Sscanf_text_bare (cf : String → Option F64) (t : String) (n v0 : F64)
    (h : isTextOf cf t n) : (Sscanf cf t "%f" v0).val = n := by
  have := Sscanf_text cf t n "" v0 h (by decide)
  simpa using this

theorem Sscanf_unscanned (cf : String → Option F64) (s : String) (v0 : F64)
    (h : (Sscanf cf s "%f" v0).n = 0) : (Sscanf cf s "%f" v0).val = v0 := by
  have e2 : "%f".data = ['%', 'f'] := rfl
  unfold Sscanf at h ⊢
  rw [e2, doScanf] at h ⊢
  simp only [if_true] at h ⊢
  cases hv : scanVerb cf s.data 0 with
  | error e => rfl
  | ok p =>
    obtain ⟨x, rs2⟩ := p
    rw [hv] at h
    simp [doScanf] at h

/-- For every bare numeral of `n`, `parsePaperSize` returns `n / 25.4`: the first
scan stores `n` although the literal `mm` is missing. -/
theorem parsePaperSize_bare (cf : String → Option F64) (t : String) (n d : F64)
    (h : isTextOf cf t n) : parsePaperSize cf t d = n / 25.4 := by
  rw [parsePaperSize_eq cf t d h.1, Sscanf_text_bare cf t n 0 h]

/-! ## Decimal numerals: lemmas -/

theorem floatToken_eq_tail (s0 : ss) :
    floatToken s0 =
      (let a1 := ss.accept ⟨[], s0.rs⟩ "nN"
       let a2 := if a1.1 then a1.2.accept "aA" else (false, a1.2)
       let a3 := if a2.1 then a2.2.accept "nN" else (false, a2.2)
       if a3.1 then a3.2 else floatTokenTail (a3.2.accept sign).2) := rfl

theorem accept_reject (buf rs : List Char) (ok : String)
    (h : ∀ c ∈ rs.head?, c ∉ ok.data) : ss.accept ⟨buf, rs⟩ ok = (false, ⟨buf, rs⟩) := by
  cases rs with
  | nil => rfl
  | cons c r =>
    have hc : c ∉ ok.data := h c (by simp)
    simp only [ss.accept, hc, if_false]

theorem accept_take (buf : List Char) (c : Char) (r : List Char) (ok : String)
    (h : c ∈ ok.data) : ss.accept ⟨buf, c :: r⟩ ok = (true, ⟨buf ++ [c], r⟩) := by
  simp only [ss.accept, h, if_true]

theorem acceptLoop_run (ok : String) (rest : List Char)
    (hrest : ∀ c ∈ rest.head?, c ∉ ok.data) :
    ∀ (ds buf : List Char), (∀ c ∈ ds, c ∈ ok.data) →
      acceptLoop ok buf (ds ++ rest) = ⟨buf ++ ds, rest⟩ := by
  intro ds
  induction ds with
  | nil =>
    intro buf _
    cases rest with
    | nil => simp [acceptLoop]
    | cons c r =>
      have hc : c ∉ ok.data := hrest c (by simp)
      simp [acceptLoop, hc]
  | cons d ds ih =>
    intro buf hds
    have hd : d ∈ ok.data := hds d (List.mem_cons_self _ _)
    have := ih (buf ++ [d]) (fun c hc => hds c (List.mem_cons_of_mem _ hc))
    simp [acceptLoop, hd, this]

theorem mem_of_all_contains (c : Char) (l1 l2 : List Char) (h : c ∈ l1)
    (hl : l1.all (fun x => l2.contains x) = true) : c ∈ l2 :=
  List.mem_of_elem_eq_true (List.all_eq_true.mp hl c h)

theorem not_mem_of_all_not (c : Char) (l1 l2 : List Char) (h : c ∈ l1)
    (hl : l1.all (fun x => !l2.contains x) = true) : c ∉ l2 := by
  have h3 := List.all_eq_true.mp hl c h
  intro hm
  simp at h3
  exact h3 hm

theorem digit_mem (c : Char) (h : isDigit c = true) : c ∈ decimalDigits.data :=
  List.mem_of_elem_eq_true h

theorem unit_not_mem (sfx : List Char) (h : unitSuffix sfx = true) (l : List Char)
    (hl : l.all (fun x => "0123456789_.eEpPxX".data.contains x) = true) :
    ∀ c ∈ sfx.head?, c ∉ l := by
  intro c hc hm
  cases sfx with
  | nil => simp at hc
  | cons x r =>
    simp at hc
    subst hc
    have h1 := List.all_eq_true.mp hl x hm
    simp only [unitSuffix] at h
    rw [h1] at h
    simp at h

/-- The first rune of an exponent followed by a unit suffix is in none of the
sets in `l`, when `l` avoids the exponent marks and the runes a unit suffix
cannot start with. -/
theorem exponent_head_not_mem (ex : Option (Char × Option Char × List Char)) (sfx : List Char)
    (hex : ∀ m es ed, ex = some (m, es, ed) → m ∈ exponent.data)
    (hs : unitSuffix sfx = true) (l : List Char)
    (hl1 : l.all (fun x => "0123456789_.eEpPxX".data.contains x) = true)
    (hl2 : exponent.data.all (fun x => !l.contains x) = true) :
    ∀ c ∈ (exponentText ex ++ sfx).head?, c ∉ l := by
  cases ex with
  | none => simpa [exponentText] using unit_not_mem sfx hs l hl1
  | some p =>
    obtain ⟨m, es, ed⟩ := p
    intro c hc
    simp [exponentText] at hc
    subst hc
    exact not_mem_of_all_not _ _ _ (hex _ es ed rfl) hl2

theorem fraction_head_not_mem (fr : Option (List Char)) (X : List Char) (l : List Char)
    (hX : ∀ c ∈ X.head?, c ∉ l) (hl : '.' ∉ l) :
    ∀ c ∈ (fractionText fr ++ X).head?, c ∉ l := by
  cases fr with
  | none => simpa [fractionText] using hX
  | some fp =>
    intro c hc
    simp [fractionText] at hc
    subst hc
    exact hl

theorem numeral_head_not_mem (ip : List Char) (fr : Option (List Char)) (X : List Char)
    (hip : ∀ c ∈ ip, isDigit c = true) (hne : ip ≠ [] ∨ fr ≠ none) (l : List Char)
    (hl : decimalDigits.data.all (fun x => !l.contains x) = true) (hp : '.' ∉ l) :
    ∀ c ∈ (ip ++ (fractionText fr ++ X)).head?, c ∉ l := by
  cases ip with
  | nil =>
    cases fr with
    | none => simp at hne
    | some fp => intro c hc; simp [fractionText] at hc; subst hc; exact hp
  | cons d ds =>
    intro c hc
    simp at hc
    subst hc
    exact not_mem_of_all_not _ _ _ (digit_mem _ (hip _ (List.mem_cons_self _ _))) hl

theorem floatTokenTail_numeral (buf ip : List Char) (fr : Option (List Char))
    (ex : Option (Char × Option Char × List Char)) (sfx : List Char)
    (hip : ∀ c ∈ ip, isDigit c = true)
    (hfr : ∀ fp, fr = some fp → ∀ c ∈ fp, isDigit c = true) (hne : ip ≠ [] ∨ fr ≠ none)
    (hex : ∀ m es ed, ex = some (m, es, ed) →
      m ∈ exponent.data ∧ isSign es = true ∧ ed ≠ [] ∧ ∀ c ∈ ed, isDigit c = true)
    (hs : unitSuffix sfx = true) :
    floatTokenTail ⟨buf, ip ++ (fractionText fr ++ (exponentText ex ++ sfx))⟩
      = ⟨buf ++ ip ++ fractionText fr ++ exponentText ex, sfx⟩ := by
  have hexm : ∀ m es ed, ex = some (m, es, ed) → m ∈ exponent.data :=
    fun m es ed h => (hex m es ed h).1
  have dmem : ∀ c, isDigit c = true → c ∈ (decimalDigits ++ "_").data :=
    fun c hc => mem_of_all_contains c _ _ (digit_mem c hc) (by decide)
  have hsd : ∀ c ∈ sfx.head?, c ∉ (decimalDigits ++ "_").data :=
    unit_not_mem sfx hs _ (by decide)
  have hse : ∀ c ∈ sfx.head?, c ∉ exponent.data := unit_not_mem sfx hs _ (by decide)
  -- the text after the fraction
  generalize hX : exponentText ex ++ sfx = X
  have hXd : ∀ c ∈ X.head?, c ∉ (decimalDigits ++ "_").data := by
    subst hX; exact exponent_head_not_mem ex sfx hexm hs _ (by decide) (by decide)
  have hXp : ∀ c ∈ X.head?, c ∉ period.data := by
    subst hX; exact exponent_head_not_mem ex sfx hexm hs _ (by decide) (by decide)
  have hXx : ∀ c ∈ X.head?, c ∉ "xX".data := by
    subst hX; exact exponent_head_not_mem ex sfx hexm hs _ (by decide) (by decide)
  have hX0 : ∀ c ∈ X.head?, c ∉ "0".data := by
    subst hX; exact exponent_head_not_mem ex sfx hexm hs _ (by decide) (by decide)
  -- the text after the integer part
  generalize hR : fractionText fr ++ X = R
  have hRd : ∀ c ∈ R.head?, c ∉ (decimalDigits ++ "_").data := by
    subst hR; exact fraction_head_not_mem fr X _ hXd (by decide)
  have hRx : ∀ c ∈ R.head?, c ∉ "xX".data := by
    subst hR; exact fraction_head_not_mem fr X _ hXx (by decide)
  have hR0 : ∀ c ∈ R.head?, c ∉ "0".data := by
    subst hR; exact fraction_head_not_mem fr X _ hX0 (by decide)
  -- Inf?
  have e1 : ss.accept ⟨buf, ip ++ R⟩ "iI" = (false, ⟨buf, ip ++ R⟩) :=
    accept_reject _ _ _ (by
      subst hR
      exact numeral_head_not_mem ip fr X hip hne _ (by decide) (by decide))
  -- the base mark and the digits of the integer part
  have e2 : ∃ h2 : Bool × ss, h2.1 = false ∧
      (let h1 := ss.accept ⟨buf, ip ++ R⟩ "0"
       if h1.1 then h1.2.accept "xX" else (false, h1.2)) = h2 ∧
      acceptLoop (decimalDigits ++ "_") h2.2.buf h2.2.rs = ⟨buf ++ ip, R⟩ := by
    cases ip with
    | nil =>
      refine ⟨(false, ⟨buf, R⟩), rfl, ?_, ?_⟩
      · simp only [List.nil_append, accept_reject _ _ _ hR0, Bool.false_eq_true, if_false]
      · have := acceptLoop_run (decimalDigits ++ "_") R hRd [] buf (by simp)
        simpa using this
    | cons d ds =>
      have hd : isDigit d = true := hip d (List.mem_cons_self _ _)
      have hds : ∀ c ∈ ds, isDigit c = true := fun c hc => hip c (List.mem_cons_of_mem _ hc)
      by_cases h0 : d ∈ "0".data
      · have hx : ∀ c ∈ (ds ++ R).head?, c ∉ "xX".data := by
          cases ds with
          | nil => simpa using hRx
          | cons x r =>
            intro c hc; simp at hc; subst hc
            exact not_mem_of_all_not _ _ _ (digit_mem _ (hds _ (List.mem_cons_self _ _)))
              (by decide)
        refine ⟨(false, ⟨buf ++ [d], ds ++ R⟩), rfl, ?_, ?_⟩
        · simp only [List.cons_append, accept_take _ _ _ _ h0, if_true, accept_reject _ _ _ hx]
        · have := acceptLoop_run (decimalDigits ++ "_") R hRd ds (buf ++ [d])
            (fun c hc => dmem c (hds c hc))
          simpa using this
      · refine ⟨(false, ⟨buf, d :: ds ++ R⟩), rfl, ?_, ?_⟩
        · have : ss.accept ⟨buf, d :: ds ++ R⟩ "0" = (false, ⟨buf, d :: ds ++ R⟩) :=
            accept_reject _ _ _ (by intro c hc; simp at hc; subst hc; exact h0)
          simp only [this, Bool.false_eq_true, if_false]
        · have := acceptLoop_run (decimalDigits ++ "_") R hRd (d :: ds) buf
            (fun c hc => dmem c (hip c hc))
          simpa using this
  obtain ⟨h2, h2f, eh2, eloop⟩ := e2
  -- the fraction
  have e3 : (let p := ss.accept ⟨buf ++ ip, R⟩ period
      if p.1 then acceptLoop (decimalDigits ++ "_") p.2.buf p.2.rs else p.2) =
        ⟨buf ++ ip ++ fractionText fr, X⟩ := by
    subst hR
    cases fr with
    | none =>
      simp only [fractionText, List.nil_append, List.append_nil, accept_reject _ _ _ hXp,
        Bool.false_eq_true, if_false]
    | some fp =>
      have hp : '.' ∈ period.data := by decide
      simp only [fractionText, List.cons_append, accept_take _ _ _ _ hp, if_true]
      have := acceptLoop_run (decimalDigits ++ "_") X hXd fp (buf ++ ip ++ ['.'])
        (fun c hc => dmem c (hfr fp rfl c hc))
      simpa using this
  -- the exponent
  have e4 : ∀ B : List Char,
      (let e := ss.accept ⟨B, X⟩ exponent
       if e.1 then
         acceptLoop (decimalDigits ++ "_") (e.2.accept sign).2.buf (e.2.accept sign).2.rs
       else e.2) = ⟨B ++ exponentText ex, sfx⟩ := by
    intro B
    subst hX
    cases ex with
    | none =>
      simp only [exponentText, List.nil_append, List.append_nil, accept_reject _ _ _ hse,
        Bool.false_eq_true, if_false]
    | some p =>
      obtain ⟨m, es, ed⟩ := p
      obtain ⟨hm, hes, hedne, hed⟩ := hex m es ed rfl
      simp only [exponentText, List.cons_append, accept_take _ _ _ _ hm, if_true]
      have hloop := fun b => acceptLoop_run (decimalDigits ++ "_") sfx hsd ed b
        (fun c hc => dmem c (hed c hc))
      simp only [isSign, Bool.or_eq_true, beq_iff_eq] at hes
      rcases hes with (hes | hes) | hes
      · subst hes
        have hrej : ∀ c ∈ (ed ++ sfx).head?, c ∉ sign.data := by
          cases ed with
          | nil => exact absurd rfl hedne
          | cons x r =>
            intro c hc; simp at hc; subst hc
            exact not_mem_of_all_not _ _ _ (digit_mem _ (hed _ (List.mem_cons_self _ _)))
              (by decide)
        simp only [Option.toList, List.nil_append, accept_reject _ _ _ hrej, hloop]
        simp
      · subst hes
        have hmem : '+' ∈ sign.data := by decide
        simp only [Option.toList, List.singleton_append, List.cons_append, List.nil_append]
        simp only [accept_take _ _ _ _ hmem, hloop]
        simp
      · subst hes
        have hmem : '-' ∈ sign.data := by decide
        simp only [Option.toList, List.singleton_append, List.cons_append, List.nil_append]
        simp only [accept_take _ _ _ _ hmem, hloop]
        simp
  unfold floatTokenTail
  simp only [e1, Bool.false_eq_true, if_false]
  simp only [] at eh2
  rw [eh2]
  simp only [h2f, Bool.false_eq_true, if_false, eloop]
  simp only [] at e3
  rw [e3]
  have e4b := e4 (buf ++ ip ++ fractionText fr)
  simp only [] at e4b
  exact e4b

theorem isNumeral_parts (sg : Option Char) (ip : List Char) (fr : Option (List Char))
    (ex : Option (Char × Option Char × List Char)) (hnum : isNumeral sg ip fr ex = true) :
    isSign sg = true ∧ (∀ c ∈ ip, isDigit c = true) ∧
      (∀ fp, fr = some fp → ∀ c ∈ fp, isDigit c = true) ∧ (ip ≠ [] ∨ fr ≠ none) ∧
      (∀ m es ed, ex = some (m, es, ed) →
        m ∈ exponent.data ∧ isSign es = true ∧ ed ≠ [] ∧ ∀ c ∈ ed, isDigit c = true) := by
  simp only [isNumeral, Bool.and_eq_true] at hnum
  obtain ⟨⟨⟨hsg, hip⟩, hfrac⟩, hexp⟩ := hnum
  refine ⟨hsg, fun c hc => List.all_eq_true.mp hip c hc, ?_, ?_, ?_⟩
  · intro fp hfp c hc
    subst hfp
    simp only [Bool.and_eq_true] at hfrac
    exact List.all_eq_true.mp hfrac.1 c hc
  · cases fr with
    | none =>
      left
      intro h
      subst h
      simp at hfrac
    | some fp => right; simp
  · intro m es ed hex
    subst hex
    simp only [Bool.and_eq_true] at hexp
    obtain ⟨⟨⟨hm, hes⟩, hed1⟩, hed2⟩ := hexp
    refine ⟨List.mem_of_elem_eq_true hm, hes, ?_, fun c hc => List.all_eq_true.mp hed2 c hc⟩
    intro h
    subst h
    simp at hed1

theorem floatToken_numeral (b : List Char) (sg : Option Char) (ip : List Char)
    (fr : Option (List Char)) (ex : Option (Char × Option Char × List Char)) (sfx : List Char)
    (hnum : isNumeral sg ip fr ex = true) (hs : unitSuffix sfx = true) :
    floatToken ⟨b, numeralText sg ip fr ex ++ sfx⟩ = ⟨numeralText sg ip fr ex, sfx⟩ := by
  obtain ⟨hsg, hip, hfr, hne, hex⟩ := isNumeral_parts sg ip fr ex hnum
  have hdn : ∀ c ∈ (ip ++ (fractionText fr ++ (exponentText ex ++ sfx))).head?,
      c ∉ "nN".data :=
    numeral_head_not_mem ip fr _ hip hne _ (by decide) (by decide)
  have hdsg : ∀ c ∈ (ip ++ (fractionText fr ++ (exponentText ex ++ sfx))).head?,
      c ∉ sign.data :=
    numeral_head_not_mem ip fr _ hip hne _ (by decide) (by decide)
  have htail := fun buf => floatTokenTail_numeral buf ip fr ex sfx hip hfr hne hex hs
  rw [floatToken_eq_tail]
  simp only [isSign, Bool.or_eq_true, beq_iff_eq] at hsg
  rcases hsg with (hsg | hsg) | hsg
  · subst hsg
    have e : numeralText none ip fr ex ++ sfx =
        ip ++ (fractionText fr ++ (exponentText ex ++ sfx)) := by
      simp [numeralText]
    simp only [e, accept_reject _ _ _ hdn, accept_reject _ _ _ hdsg, Bool.false_eq_true,
      if_false, htail]
    simp [numeralText]
  · subst hsg
    have e : numeralText (some '+') ip fr ex ++ sfx =
        '+' :: (ip ++ (fractionText fr ++ (exponentText ex ++ sfx))) := by
      simp [numeralText]
    have h1 : ss.accept ⟨[], '+' :: (ip ++ (fractionText fr ++ (exponentText ex ++ sfx)))⟩ "nN"
        = (false, ⟨[], '+' :: (ip ++ (fractionText fr ++ (exponentText ex ++ sfx)))⟩) :=
      accept_reject _ _ _ (by intro c hc; simp at hc; subst hc; decide)
    have h2 : '+' ∈ sign.data := by decide
    simp only [e, h1, accept_take _ _ _ _ h2, Bool.false_eq_true, if_false, htail]
    simp [numeralText]
  · subst hsg
    have e : numeralText (some '-') ip fr ex ++ sfx =
        '-' :: (ip ++ (fractionText fr ++ (exponentText ex ++ sfx))) := by
      simp [numeralText]
    have h1 : ss.accept ⟨[], '-' :: (ip ++ (fractionText fr ++ (exponentText ex ++ sfx)))⟩ "nN"
        = (false, ⟨[], '-' :: (ip ++ (fractionText fr ++ (exponentText ex ++ sfx)))⟩) :=
      accept_reject _ _ _ (by intro c hc; simp at hc; subst hc; decide)
    have h2 : '-' ∈ sign.data := by decide
    simp only [e, h1, accept_take _ _ _ _ h2, Bool.false_eq_true, if_false, htail]
    simp [numeralText]

theorem numeralText_ne_nil (sg : Option Char) (ip : List Char) (fr : Option (List Char))
    (ex : Option (Char × Option Char × List Char)) (hnum : isNumeral sg ip fr ex = true) :
    numeralText sg ip fr ex ≠ [] := by
  obtain ⟨_, _, _, hne, _⟩ := isNumeral_parts sg ip fr ex hnum
  intro h
  simp only [numeralText, List.append_eq_nil] at h
  rcases hne with hne | hne
  · exact hne h.1.1.2
  · cases fr with
    | none => exact hne rfl
    | some fp => simp [fractionText] at h

theorem Sscanf_token (cf : String → Option F64) (t sfx : List Char) (n v0 : F64)
    (hne : t ≠ []) (htok : floatToken ⟨[], t ++ sfx⟩ = ⟨t, sfx⟩)
    (hcf : cf (String.mk t) = some n) :
    (Sscanf cf (String.mk (t ++ sfx)) "%f" v0).val = n := by
  cases t with
  | nil => exact absurd rfl hne
  | cons c r =>
    have hsp : isSpace c = false := by
      by_contra hsp
      have hsp2 : isSpace c = true := by simpa using hsp
      have := floatToken_inert_head [] c (r ++ sfx) (inert_of_isSpace c hsp2)
      rw [List.cons_append] at htok
      rw [this] at htok
      simp at htok
    have hskip : SkipSpace (c :: r ++ sfx) = some (c :: r ++ sfx) :=
      SkipSpace_cons c (r ++ sfx) hsp
    have hone : scanOne cf (c :: r ++ sfx) = some (n, sfx) := by
      unfold scanOne
      rw [hskip]
      simp only [List.cons_append]
      rw [show c :: (r ++ sfx) = c :: r ++ sfx from rfl, htok]
      simp [hcf]
    have e2 : "%f".data = ['%', 'f'] := rfl
    unfold Sscanf
    rw [e2, doScanf]
    simp only [if_true, scanVerb, hskip, hone]
    simp [doScanf]

theorem Sscanf_numeral (cf : String → Option F64) (sg : Option Char) (ip : List Char)
    (fr : Option (List Char)) (ex : Option (Char × Option Char × List Char)) (sfx : List Char)
    (n v0 : F64) (hnum : isNumeral sg ip fr ex = true) (hs : unitSuffix sfx = true)
    (hcf : cf (String.mk (numeralText sg ip fr ex)) = some n) :
    (Sscanf cf (String.mk (numeralText sg ip fr ex ++ sfx)) "%f" v0).val = n :=
  Sscanf_token cf _ sfx n v0 (numeralText_ne_nil sg ip fr ex hnum)
    (floatToken_numeral [] sg ip fr ex sfx hnum hs) hcf

/-! ## Concrete numerals -/

theorem decimalFloat_8_5 : decimalFloat "8.5" = some 8.5 := by
  simp [decimalFloat, readSign, readDigits, F64.ofScientific_def]
  norm_num

theorem decimalFloat_5 : decimalFloat "5" = some 5 := by
  simp [decimalFloat, readSign, readDigits, F64.ofNat_def]

theorem decimalFloat_10 : decimalFloat "10" = some 10 := by
  simp [decimalFloat, readSign, readDigits, F64.ofNat_def]

theorem decimalFloat_210 : decimalFloat "210" = some 210 := by
  simp [decimalFloat, readSign, readDigits, F64.ofNat_def]

theorem decimalFloat_neg : decimalFloat "-1.5e3" = some (F64.fin (-1500)) := by
  simp [decimalFloat, readSign, readDigits, readExponent]
  norm_num

theorem decimalFloat_NaN : decimalFloat "NaN" = some F64.nan := by
  simp [decimalFloat]

theorem decimalFloat_5p : decimalFloat "5p" = none := by
  simp [decimalFloat, readSign, readDigits, readExponent]

theorem isTextOf_8_5 : isTextOf decimalFloat "8.5" 8.5 :=
  ⟨by decide, by decide, decimalFloat_8_5⟩

theorem isTextOf_5 : isTextOf decimalFloat "5" 5 :=
  ⟨by decide, by decide, decimalFloat_5⟩

theorem isTextOf_10 : isTextOf decimalFloat "10" 10 :=
  ⟨by decide, by decide, decimalFloat_10⟩

theorem isTextOf_210 : isTextOf decimalFloat "210" 210 :=
  ⟨by decide, by decide, decimalFloat_210⟩

theorem isTextOf_NaN : isTextOf decimalFloat "NaN" F64.nan :=
  ⟨by decide, by decide, decimalFloat_NaN⟩

theorem F64.lit_8_5_div_ne : (8.5 : F64) / 25.4 ≠ 8.5 := by
  rw [F64.ofScientific_def, F64.ofScientific_def, F64.fin_div _ _ (by norm_num)]
  intro h
  have := F64.fin.inj h
  norm_num at this

theorem F64.lit_210_ne : (210 : F64) ≠ 0 := by
  rw [F64.ofNat_def, F64.ofNat_def]
  intro h
  have := F64.fin.inj h
  norm_num at this

theorem F64.lit_5_div_ne : (0 : F64) ≠ 5 / 25.4 := by
  rw [F64.ofNat_def, F64.ofNat_def, F64.ofScientific_def, F64.fin_div _ _ (by norm_num)]
  intro h
  have := F64.fin.inj h
  norm_num at this

/-- The scan of `5pt` with `%f` stores nothing: the float token is `5p`, which
does not convert. -/
theorem Sscanf_5pt (v0 : F64) : (Sscanf decimalFloat "5pt" "%f" v0).val = v0 := by
  have htok : floatToken ⟨[], ['5', 'p', 't']⟩ = ⟨['5', 'p'], ['t']⟩ := by decide
  have hskip : SkipSpace ['5', 'p', 't'] = some ['5', 'p', 't'] := by decide
  have hcf : decimalFloat (String.mk ['5', 'p']) = none := decimalFloat_5p
  have hone : scanOne decimalFloat ['5', 'p', 't'] = none := by
    unfold scanOne
    rw [hskip]
    simp only []
    rw [htok]
    simp only [hcf]
  have e1 : ("5pt" : String).data = ['5', 'p', 't'] := rfl
  have e2 : "%f".data = ['%', 'f'] := rfl
  unfold Sscanf
  rw [e1, e2, doScanf]
  simp only [if_true, scanVerb, hskip, hone]
  simp

/-! ## The claims about the page layout parameters -/

/-- C2, evaluated on the code: for the bare numeral `8.5` and every default,
`parsePaperSize` returns `8.5 / 25.4` (that is `85 / 254`), not `8.5`: the scan
with `%fmm` has already stored `8.5` when the literal `mm` fails to match, so the
branch that returns the number unconverted is not taken. -/
theorem parsePaperSize_bare_8_5 (d : F64) :
    isTextOf decimalFloat "8.5" 8.5 ∧
      parsePaperSize decimalFloat "8.5" d = 8.5 / 25.4 ∧
      parsePaperSize decimalFloat "8.5" d ≠ 8.5 := by
  have hv := parsePaperSize_bare decimalFloat "8.5" 8.5 d isTextOf_8_5
  refine ⟨isTextOf_8_5, hv, ?_⟩
  rw [hv]
  exact F64.lit_8_5_div_ne

/-- C3: for every bare numeral of `n` and every default `d`, `parseMargin`
returns `n / 25.4` both for the numeral followed by `mm` and for the numeral
alone; the default plays no part. -/
theorem parseMargin_millimetres (cf : String → Option F64) (t : String) (n d : F64)
    (h : isTextOf cf t n) :
    parseMargin cf (t ++ "mm") d = n / 25.4 ∧ parseMargin cf t d = n / 25.4 := by
  constructor
  · rw [parseMargin_eq cf _ d (append_mm_ne t), Sscanf_text cf t n "mm" 0 h (by decide)]
  · rw [parseMargin_eq cf t d h.1, Sscanf_text_bare cf t n 0 h]

/-- Witness of C3: `parseMargin("10mm", 10) = 10/25.4` and `parseMargin("5", 10) = 5/25.4`. -/
theorem parseMargin_millimetres_witness :
    isTextOf decimalFloat "10" 10 ∧ isTextOf decimalFloat "5" 5 ∧
      parseMargin decimalFloat "10mm" 10 = 10 / 25.4 ∧
      parseMargin decimalFloat "5" 10 = 5 / 25.4 :=
  ⟨isTextOf_10, isTextOf_5,
    (parseMargin_millimetres decimalFloat "10" 10 10 isTextOf_10).1,
    (parseMargin_millimetres decimalFloat "5" 5 10 isTextOf_5).2⟩

/-- C4: for every bare numeral of a nonzero `n` and every default `d`,
`parsePaperSize` of the numeral followed by `mm` is `n / 25.4`. -/
theorem parsePaperSize_millimetres (cf : String → Option F64) (t : String) (n d : F64)
    (h : isTextOf cf t n) (hn : n ≠ 0) :
    parsePaperSize cf (t ++ "mm") d = n / 25.4 := by
  have hv : (Sscanf cf (t ++ "mm") "%fmm" 0).val = n := by
    rw [Sscanf_mm_val, Sscanf_text cf t n "mm" 0 h (by decide)]
  have hz : F64.eq n 0 = false := by
    cases hq : F64.eq n 0 with
    | false => rfl
    | true => exact absurd ((F64.eq_zero n).mp hq) hn
  unfold parsePaperSize
  simp only [append_mm_ne t, if_false, hv, hz, Bool.false_eq_true]

/-- Witness of C4: `parsePaperSize("210mm", 8.5) = 210/25.4`. -/
theorem parsePaperSize_millimetres_witness :
    isTextOf decimalFloat "210" 210 ∧ (210 : F64) ≠ 0 ∧
      parsePaperSize decimalFloat "210mm" 8.5 = 210 / 25.4 :=
  ⟨isTextOf_210, F64.lit_210_ne,
    parsePaperSize_millimetres decimalFloat "210" 210 8.5 isTextOf_210 F64.lit_210_ne⟩

/-- C6: `getByOption` maps `id` to `ByID`, `xpath` to `BySearch` and every other
tag (among them `css`, the empty tag and the case variants `ID`, `XPath`) to
`ByQuery`; the result is `ByQuery` exactly when the tag is neither `id` nor
`xpath`. -/
theorem getByOption_mapping :
    getByOption "id" = QueryOption.ByID ∧ getByOption "xpath" = QueryOption.BySearch ∧
      getByOption "css" = QueryOption.ByQuery ∧ getByOption "" = QueryOption.ByQuery ∧
      getByOption "ID" = QueryOption.ByQuery ∧ getByOption "XPath" = QueryOption.ByQuery ∧
      ∀ selBy : String,
        getByOption selBy = QueryOption.ByQuery ↔ (selBy ≠ "id" ∧ selBy ≠ "xpath") := by
  refine ⟨by decide, by decide, by decide, by decide, by decide, by decide, ?_⟩
  intro selBy
  unfold getByOption
  by_cases h1 : selBy = "id"
  · simp [h1]
  · by_cases h2 : selBy = "xpath"
    · subst h2; simp
    · simp [h1, h2]

/-- The last clause of C10 fails for the suffix `pt`: the rune `p` continues the
float token of `5`, the token `5p` does not convert, nothing is stored, and both
functions return 0 for `5pt` although they return `5 / 25.4` for `5`. -/
theorem parseMargin_suffix_pt :
    isTextOf decimalFloat "5" 5 ∧
      parseMargin decimalFloat "5" 10 = 5 / 25.4 ∧
      parsePaperSize decimalFloat "5" 8.5 = 5 / 25.4 ∧
      parseMargin decimalFloat "5pt" 10 = 0 ∧
      parsePaperSize decimalFloat "5pt" 8.5 = 0 ∧
      parseMargin decimalFloat "5pt" 10 ≠ parseMargin decimalFloat "5" 10 ∧
      parsePaperSize decimalFloat "5pt" 8.5 ≠ parsePaperSize decimalFloat "5" 8.5 := by
  have m5 : parseMargin decimalFloat "5" 10 = 5 / 25.4 := by
    rw [parseMargin_eq _ _ _ (by decide), Sscanf_text_bare decimalFloat "5" 5 0 isTextOf_5]
  have p5 : parsePaperSize decimalFloat "5" 8.5 = 5 / 25.4 :=
    parsePaperSize_bare decimalFloat "5" 5 8.5 isTextOf_5
  have mpt : parseMargin decimalFloat "5pt" 10 = 0 := by
    rw [parseMargin_eq _ _ _ (by decide), Sscanf_5pt, F64.zero_div]
  have ppt : parsePaperSize decimalFloat "5pt" 8.5 = 0 := by
    rw [parsePaperSize_eq _ _ _ (by decide), Sscanf_5pt, F64.zero_div]
  refine ⟨isTextOf_5, m5, p5, mpt, ppt, ?_, ?_⟩
  · rw [mpt, m5]; exact F64.lit_5_div_ne
  · rw [ppt, p5]; exact F64.lit_5_div_ne

/-- C10, amended: for every non-empty text and all defaults, `parsePaperSize`
and `parseMargin` agree: both are the number the verb `%f` scans at the start of
the text divided by 25.4, and 0 when nothing is scanned.  The scan with `%fmm`
leaves the same value as the scan with `%f`, so the branch of `parsePaperSize`
that returns the value unconverted returns 0 whenever it is taken.  A trailing
suffix is ignored when it does not continue the float token: whenever the
float token of a text `t` followed by the suffix is `t` itself, both functions
return the number of `t` divided by 25.4.  That is the case after any bare
numeral for a suffix that starts with no rune of a float token, and after
every decimal numeral (sign, digits, fraction, exponent) for every suffix that
does not start with a digit, an underscore, a period or one of `e E p P x X`,
among them `mm`, `in`, `cm` and the empty suffix. -/
theorem parsePaperSize_eq_parseMargin (cf : String → Option F64) (s : String) (d1 d2 : F64)
    (hs : s ≠ "") :
    parsePaperSize cf s d1 = parseMargin cf s d2 ∧
      parseMargin cf s d2 = (Sscanf cf s "%f" 0).val / 25.4 ∧
      ((Sscanf cf s "%f" 0).n = 0 → parseMargin cf s d2 = 0) ∧
      (Sscanf cf s "%fmm" 0).val = (Sscanf cf s "%f" 0).val ∧
      (F64.eq (Sscanf cf s "%fmm" 0).val 0 = true →
        (Sscanf cf s "%f" (Sscanf cf s "%fmm" 0).val).val = 0) ∧
      (∀ (t sfx : String) (n : F64), isTextOf cf t n → inertSuffix sfx.data = true →
        s = t ++ sfx → parsePaperSize cf s d1 = n / 25.4 ∧ parseMargin cf s d2 = n / 25.4) ∧
      (∀ (sg : Option Char) (ip : List Char) (fr : Option (List Char))
          (ex : Option (Char × Option Char × List Char)) (sfx : List Char) (n : F64),
        isNumeral sg ip fr ex = true → unitSuffix sfx = true →
        cf (String.mk (numeralText sg ip fr ex)) = some n →
        s = String.mk (numeralText sg ip fr ex ++ sfx) →
          parsePaperSize cf s d1 = n / 25.4 ∧ parseMargin cf s d2 = n / 25.4) ∧
      (∀ (t sfx : List Char) (n : F64), t ≠ [] →
        floatToken ⟨[], t ++ sfx⟩ = ⟨t, sfx⟩ → cf (String.mk t) = some n →
        s = String.mk (t ++ sfx) →
          parsePaperSize cf s d1 = n / 25.4 ∧ parseMargin cf s d2 = n / 25.4) ∧
      (unitSuffix "mm".data = true ∧ unitSuffix "in".data = true ∧
        unitSuffix "cm".data = true ∧ unitSuffix "".data = true) := by
  have hm := parseMargin_eq cf s d2 hs
  have hp := parsePaperSize_eq cf s d1 hs
  refine ⟨by rw [hm, hp], hm, ?_, Sscanf_mm_val cf s 0, ?_, ?_, ?_, ?_,
    by decide, by decide, by decide, by decide⟩
  · intro h0
    rw [hm, Sscanf_unscanned cf s 0 h0, F64.zero_div]
  · intro h0
    have h1 := (F64.eq_zero _).mp h0
    rw [h1]
    rw [Sscanf_mm_val] at h1
    exact h1
  · intro t sfx n ht hsfx hst
    subst hst
    rw [hm, hp, Sscanf_text cf t n sfx 0 ht hsfx]
    exact ⟨rfl, rfl⟩
  · intro sg ip fr ex sfx n hnum hsfx hcf hst
    subst hst
    rw [hm, hp, Sscanf_numeral cf sg ip fr ex sfx n 0 hnum hsfx hcf]
    exact ⟨rfl, rfl⟩
  · intro t sfx n hne htok hcf hst
    subst hst
    rw [hm, hp, Sscanf_token cf t sfx n 0 hne htok hcf]
    exact ⟨rfl, rfl⟩

/-- Witness of C10, amended: the texts `5in`, `5cm` and `-1.5e3mm` give the
number divided by 25.4 in both functions, and the text `NaN` gives NaN in both. -/
theorem parsePaperSize_eq_parseMargin_witness :
    ("5in" : String) ≠ "" ∧
      parsePaperSize decimalFloat "5in" 8.5 = parseMargin decimalFloat "5in" 10 ∧
      parseMargin decimalFloat "5in" 10 = 5 / 25.4 ∧
      parsePaperSize decimalFloat "5cm" 11 = 5 / 25.4 ∧
      parseMargin decimalFloat "5cm" 10 = 5 / 25.4 ∧
      parsePaperSize decimalFloat "-1.5e3mm" 11 = F64.fin (-1500) / 25.4 ∧
      parsePaperSize decimalFloat "NaN" 8.5 = parseMargin decimalFloat "NaN" 10 ∧
      parseMargin decimalFloat "NaN" 10 = F64.nan := by
  have h1 := parsePaperSize_eq_parseMargin decimalFloat "5in" 8.5 10 (by decide)
  have h2 := parsePaperSize_eq_parseMargin decimalFloat "5cm" 11 10 (by decide)
  have h3 := parsePaperSize_eq_parseMargin decimalFloat "-1.5e3mm" 11 10 (by decide)
  have h4 := parsePaperSize_eq_parseMargin decimalFloat "NaN" 8.5 10 (by decide)
  have v1 := h1.2.2.2.2.2.2.1 none ['5'] none none ['i', 'n'] 5 (by decide) (by decide)
    decimalFloat_5 rfl
  have v2 := h2.2.2.2.2.2.2.1 none ['5'] none none ['c', 'm'] 5 (by decide) (by decide)
    decimalFloat_5 rfl
  have v3 := h3.2.2.2.2.2.2.1 (some '-') ['1'] (some ['5']) (some ('e', none, ['3'])) ['m', 'm']
    (F64.fin (-1500)) (by decide) (by decide) decimalFloat_neg rfl
  refine ⟨by decide, h1.1, v1.2, v2.1, v2.2, v3.1, h4.1, ?_⟩
  rw [h4.2.1, Sscanf_text_bare decimalFloat "NaN" F64.nan 0 isTextOf_NaN]
  rfl

/-! ## The conversion: lemmas -/

theorem foldl_append_singleton {α β : Type} (f : α → β) (l : List α) (init : List β) :
    l.foldl (fun acc x => acc ++ [f x]) init = init ++ l.map f := by
  induction l generalizing init with
  | nil => simp
  | cons a l ih => simp [ih]

theorem buildTasks_eq (cf : String → Option F64) (req : generatePDFRequestV1) (htmlURL : String) :
    buildTasks cf req htmlURL =
      [Action.Navigate htmlURL, Action.WaitReady "body" QueryOption.ByQuery] ++
        (if req.RenderParameters.WaitTime > 0 then
          [Action.Sleep (wrapInt64 (req.RenderParameters.WaitTime * Millisecond))] else []) ++
        req.RenderParameters.WaitReady.map
          (fun sel => Action.WaitReady sel.Selector (getByOption sel.By)) ++
        req.RenderParameters.WaitVisible.map
          (fun sel => Action.WaitVisible sel.Selector (getByOption sel.By)) ++
        [Action.ActionFunc (pdfParams cf req)] := by
  unfold buildTasks
  simp only [foldl_append_singleton]
  split_ifs <;> simp

theorem convertFrom_tasks (cf : String → Option F64) (w : World) (fs : FS)
    (req : generatePDFRequestV1) (htmlURL : String) :
    (convertFrom cf w fs req htmlURL).tasks = some (buildTasks cf req htmlURL) ∧
      (convertFrom cf w fs req htmlURL).fs = fs ∧
      (convertFrom cf w fs req htmlURL).deadline = timeout req := by
  unfold convertFrom
  simp only []
  split <;> simp

theorem convertToPDF_deadline (cf : String → Option F64) (w : World) (fs : FS)
    (req : generatePDFRequestV1) : (convertToPDF cf w fs req).deadline = timeout req := by
  unfold convertToPDF
  split_ifs with hweb
  · exact (convertFrom_tasks cf w fs req _).2.2
  · cases w.CreateTemp fs with
    | error e => rfl
    | ok name =>
      simp only []
      cases (w.Write name req.Content).2 with
      | some e => rfl
      | none => exact (convertFrom_tasks cf w _ req _).2.2

theorem Tasks_Do_last (b : Browser) (p : PrintToPDFParams) :
    ∀ (pre : List Action) (i : Nat) (buf0 buf : ByteSlice),
      Tasks.Do b (pre ++ [Action.ActionFunc p]) i buf0 = (buf, none) →
        b.print (i + pre.length) p = (buf, none) := by
  intro pre
  induction pre with
  | nil =>
    intro i buf0 buf h
    simp only [List.nil_append, Tasks.Do, Action.Do] at h
    rcases hp : b.print i p with ⟨x, e⟩
    rw [hp] at h
    cases e with
    | some e => simp at h
    | none =>
      simp at h
      show b.print i p = (buf, none)
      rw [hp, h]
  | cons a pre ih =>
    intro i buf0 buf h
    simp only [List.cons_append, Tasks.Do] at h
    rcases hp : a.Do b i buf0 with ⟨x, e⟩
    rw [hp] at h
    cases e with
    | some e => simp at h
    | none =>
      simp only [] at h
      have := ih (i + 1) x buf h
      simpa [Nat.add_assoc, Nat.add_comm 1] using this

theorem convertFrom_results (cf : String → Option F64) (w : World) (fs : FS)
    (req : generatePDFRequestV1) (htmlURL : String) :
    ((convertFrom cf w fs req htmlURL).err ≠ none → (convertFrom cf w fs req htmlURL).pdf = none) ∧
      ((convertFrom cf w fs req htmlURL).err = none →
        (w.browser (timeout req) fs).start = none ∧
        (w.browser (timeout req) fs).print ((buildTasks cf req htmlURL).length - 1)
            (pdfParams cf req) = ((convertFrom cf w fs req htmlURL).pdf, none)) := by
  unfold convertFrom
  simp only []
  rcases hr : Run (w.browser (timeout req) fs) (buildTasks cf req htmlURL) none with ⟨buf, e⟩
  cases e with
  | some e => simp
  | none =>
    simp only [ne_eq, not_true_eq_false, false_implies, true_and, true_implies]
    unfold Run at hr
    cases hs : (w.browser (timeout req) fs).start with
    | some e => rw [hs] at hr; simp at hr
    | none =>
      rw [hs] at hr
      simp only [] at hr
      refine ⟨rfl, ?_⟩
      obtain ⟨pre, hpre⟩ : ∃ pre, buildTasks cf req htmlURL =
          pre ++ [Action.ActionFunc (pdfParams cf req)] := ⟨_, buildTasks_eq cf req htmlURL⟩
      rw [hpre] at hr ⊢
      have := Tasks_Do_last _ _ _ _ _ _ hr
      simpa using this

theorem Remove_write_create (fs : FS) (name : String) (data : List Nat)
    (hfresh : ∀ f ∈ fs, f.name ≠ name) : ((fs.create name).write name data).Remove name = fs := by
  have hmap : List.map (fun f : File => if f.name = name then { f with data := data } else f) fs
      = fs := by
    conv_rhs => rw [← List.map_id fs]
    apply List.map_congr_left
    intro f hf
    simp [hfresh f hf]
  have hfilter : List.filter (fun f : File => decide (f.name ≠ name)) fs = fs := by
    apply List.filter_eq_self.mpr
    intro f hf
    simpa using hfresh f hf
  unfold FS.create FS.write FS.Remove
  rw [List.map_append, List.filter_append, hmap, hfilter]
  simp

theorem convertToPDF_web (cf : String → Option F64) (w : World) (fs : FS)
    (req : generatePDFRequestV1) (hweb : req.Method = "web") :
    convertToPDF cf w fs req = convertFrom cf w fs req req.ContentURL := by
  unfold convertToPDF
  simp [hweb]

theorem wrapInt64_of_range (x : Int) (h1 : -(2 ^ 63) ≤ x) (h2 : x < 2 ^ 63) : wrapInt64 x = x := by
  unfold wrapInt64
  omega

theorem exampleWorld_fresh (w : World) (hw : w.CreateTemp = exampleWorld.CreateTemp) :
    ∀ name, w.CreateTemp exampleFS = Except.ok name → ∀ f ∈ exampleFS, f.name ≠ name := by
  intro name h f hf
  rw [hw] at h
  simp [exampleWorld] at h
  subst h
  simp [exampleFS] at hf
  subst hf
  decide

/-! ## The claims about the conversion -/

/-- C1: the task list `convertToPDF` hands to the browser is, in this order,
`Navigate(target)`, `WaitReady("body", ByQuery)`, one `Sleep` exactly when
`WaitTime > 0`, one `WaitReady` per entry of `RenderParameters.WaitReady` and
one `WaitVisible` per entry of `RenderParameters.WaitVisible` in the caller's
order with the strategy `getByOption` gives, and the print step last; `target`
is `ContentURL` for the method `web` and otherwise `file://` followed by the
name of the temporary file.  The list has `3 + (1 if WaitTime > 0) +
len(WaitReady) + len(WaitVisible)` steps.  No list is built exactly when the
temporary file cannot be created or written. -/
theorem convertToPDF_task_list (cf : String → Option F64) (w : World) (fs : FS)
    (req : generatePDFRequestV1) :
    (((convertToPDF cf w fs req).tasks = none ∧ req.Method ≠ "web" ∧
        ((∃ e, w.CreateTemp fs = Except.error e) ∨
          ∃ name e, w.CreateTemp fs = Except.ok name ∧ (w.Write name req.Content).2 = some e)) ∨
      ∃ target tasks,
        ((req.Method = "web" ∧ target = req.ContentURL) ∨
          (req.Method ≠ "web" ∧ ∃ name, w.CreateTemp fs = Except.ok name ∧
            (w.Write name req.Content).2 = none ∧ target = "file://" ++ name)) ∧
        (convertToPDF cf w fs req).tasks = some tasks ∧
        tasks =
          [Action.Navigate target, Action.WaitReady "body" QueryOption.ByQuery] ++
            (if req.RenderParameters.WaitTime > 0 then
              [Action.Sleep (wrapInt64 (req.RenderParameters.WaitTime * Millisecond))] else []) ++
            req.RenderParameters.WaitReady.map
              (fun sel => Action.WaitReady sel.Selector (getByOption sel.By)) ++
            req.RenderParameters.WaitVisible.map
              (fun sel => Action.WaitVisible sel.Selector (getByOption sel.By)) ++
            [Action.ActionFunc (pdfParams cf req)] ∧
        tasks.length =
          3 + (if req.RenderParameters.WaitTime > 0 then 1 else 0) +
            req.RenderParameters.WaitReady.length + req.RenderParameters.WaitVisible.length) ∧
      (convertToPDF decimalFloat exampleWorld exampleFS exampleRequest).tasks =
        some [Action.Navigate "file:///tmp/unihtml-1.html",
          Action.WaitReady "body" QueryOption.ByQuery,
          Action.Sleep (100 * Millisecond),
          Action.WaitReady "#a" QueryOption.ByID,
          Action.WaitVisible "#b" QueryOption.ByQuery,
          Action.ActionFunc (pdfParams decimalFloat exampleRequest)] := by
  have hlen : ∀ target, (buildTasks cf req target).length =
      3 + (if req.RenderParameters.WaitTime > 0 then 1 else 0) +
        req.RenderParameters.WaitReady.length + req.RenderParameters.WaitVisible.length := by
    intro target
    rw [buildTasks_eq]
    split_ifs <;> simp <;> omega
  constructor
  · by_cases hweb : req.Method = "web"
    · right
      refine ⟨req.ContentURL, buildTasks cf req req.ContentURL, Or.inl ⟨hweb, rfl⟩, ?_,
        buildTasks_eq cf req _, hlen _⟩
      rw [convertToPDF_web cf w fs req hweb]
      exact (convertFrom_tasks cf w fs req _).1
    · cases hct : w.CreateTemp fs with
      | error e =>
        left
        refine ⟨?_, hweb, Or.inl ⟨e, rfl⟩⟩
        unfold convertToPDF
        simp [hweb, hct]
      | ok name =>
        cases hwr : (w.Write name req.Content).2 with
        | some e =>
          left
          refine ⟨?_, hweb, Or.inr ⟨name, e, rfl, hwr⟩⟩
          unfold convertToPDF
          simp [hweb, hct, hwr]
        | none =>
          right
          refine ⟨"file://" ++ name, buildTasks cf req ("file://" ++ name),
            Or.inr ⟨hweb, name, rfl, hwr, rfl⟩, ?_, buildTasks_eq cf req _, hlen _⟩
          unfold convertToPDF
          simp only [hweb, if_false, hct, hwr]
          exact (convertFrom_tasks cf w _ req _).1
  · have hm : exampleRequest.Method ≠ "web" := by decide
    unfold convertToPDF
    simp only [hm, if_false, exampleWorld]
    rw [(convertFrom_tasks _ _ _ _ _).1, buildTasks_eq]
    simp [exampleRequest, getByOption, wrapInt64, Millisecond]

/-- The claim C5 fails for a timeout of 9223372036855 ms, a positive `int64`:
the product with 1,000,000 does not fit in an `int64`, and the deadline that
`convertToPDF` computes is the negative duration -9223372036854551616 ns. -/
theorem convertToPDF_deadline_wraps :
    isInt64 exampleLongRequest.TimeoutDuration ∧ 0 < exampleLongRequest.TimeoutDuration ∧
      (convertToPDF decimalFloat exampleWorld exampleFS exampleLongRequest).deadline =
        -9223372036854551616 ∧
      (convertToPDF decimalFloat exampleWorld exampleFS exampleLongRequest).deadline ≠
        exampleLongRequest.TimeoutDuration * Millisecond := by
  rw [convertToPDF_deadline]
  refine ⟨by decide, by decide, by decide, by decide⟩

/-- C5, amended: the deadline `convertToPDF` computes is 30000 ms when
`TimeoutDuration` is at most 0, and `TimeoutDuration` ms when
`0 < TimeoutDuration ≤ 9223372036854`, the range in which the product with
1,000,000 fits in an `int64`. -/
theorem convertToPDF_deadline_in_range (cf : String → Option F64) (w : World) (fs : FS)
    (req : generatePDFRequestV1) :
    (req.TimeoutDuration ≤ 0 →
        (convertToPDF cf w fs req).deadline = 30000 * Millisecond) ∧
      (0 < req.TimeoutDuration → req.TimeoutDuration ≤ 9223372036854 →
        (convertToPDF cf w fs req).deadline = req.TimeoutDuration * Millisecond) := by
  rw [convertToPDF_deadline]
  unfold timeout
  constructor
  · intro h
    have : ¬ req.TimeoutDuration > 0 := by omega
    simp only [this, if_false, Second]
    ring
  · intro h1 h2
    simp only [gt_iff_lt, h1, if_true]
    apply wrapInt64_of_range
    · unfold Millisecond; omega
    · unfold Millisecond; omega

/-- Witness of C5, amended: a timeout of 5000 gives exactly 5000 ms. -/
theorem convertToPDF_deadline_in_range_witness :
    (0 : Int) < exampleRequest.TimeoutDuration ∧ exampleRequest.TimeoutDuration ≤ 9223372036854 ∧
      (convertToPDF decimalFloat exampleWorld exampleFS exampleRequest).deadline =
        5000 * Millisecond :=
  ⟨by decide, by decide,
    (convertToPDF_deadline_in_range decimalFloat exampleWorld exampleFS exampleRequest).2
      (by decide) (by decide)⟩

/-- C7: when all text fields of `PageParameters` are empty, the print step gets
the default layout: margins of `10 / 25.4` inches, a paper of 8.5 by 11 inches,
portrait, with background printing; `parseMargin("", d) = d / 25.4` and
`parsePaperSize("", d) = d` for every `d`. -/
theorem pdfParams_defaults (cf : String → Option F64) (req : generatePDFRequestV1)
    (h : req.PageParameters.PaperWidth = "" ∧ req.PageParameters.PaperHeight = "" ∧
      req.PageParameters.Orientation = "" ∧ req.PageParameters.MarginTop = "" ∧
      req.PageParameters.MarginBottom = "" ∧ req.PageParameters.MarginLeft = "" ∧
      req.PageParameters.MarginRight = "") :
    pdfParams cf req =
        { PaperWidth := 8.5, PaperHeight := 11, MarginTop := 10 / 25.4, MarginBottom := 10 / 25.4,
          MarginLeft := 10 / 25.4, MarginRight := 10 / 25.4, Landscape := false,
          PrintBackground := true } ∧
      (∀ d : F64, parseMargin cf "" d = d / 25.4) ∧ (∀ d : F64, parsePaperSize cf "" d = d) ∧
      ∀ (w : World) (fs : FS) (tasks : List Action),
        (convertToPDF cf w fs req).tasks = some tasks →
          tasks.getLast? = some (Action.ActionFunc
            { PaperWidth := 8.5, PaperHeight := 11, MarginTop := 10 / 25.4,
              MarginBottom := 10 / 25.4, MarginLeft := 10 / 25.4, MarginRight := 10 / 25.4,
              Landscape := false, PrintBackground := true }) := by
  obtain ⟨h1, h2, h3, h4, h5, h6, h7⟩ := h
  have hp : pdfParams cf req =
      { PaperWidth := 8.5, PaperHeight := 11, MarginTop := 10 / 25.4, MarginBottom := 10 / 25.4,
        MarginLeft := 10 / 25.4, MarginRight := 10 / 25.4, Landscape := false,
        PrintBackground := true } := by
    unfold pdfParams
    simp [h1, h2, h3, h4, h5, h6, h7, parseMargin, parsePaperSize]
  refine ⟨hp, fun d => by simp [parseMargin], fun d => by simp [parsePaperSize], ?_⟩
  intro w fs tasks ht
  have hlast : ∀ target, tasks = buildTasks cf req target →
      tasks.getLast? = some (Action.ActionFunc (pdfParams cf req)) := by
    intro target e
    rw [e, buildTasks_eq]
    exact List.getLast?_concat _
  rw [← hp]
  by_cases hweb : req.Method = "web"
  · rw [convertToPDF_web cf w fs req hweb, (convertFrom_tasks cf w fs req _).1] at ht
    exact hlast _ (Option.some.inj ht).symm
  · unfold convertToPDF at ht
    simp only [hweb, if_false] at ht
    cases hct : w.CreateTemp fs with
    | error e => rw [hct] at ht; simp at ht
    | ok name =>
      rw [hct] at ht
      simp only [] at ht
      cases hwr : (w.Write name req.Content).2 with
      | some e => rw [hwr] at ht; simp at ht
      | none =>
        rw [hwr] at ht
        simp only [] at ht
        rw [(convertFrom_tasks cf w _ req _).1] at ht
        exact hlast _ (Option.some.inj ht).symm

/-- Witness of C7: the example request has empty page parameters. -/
theorem pdfParams_defaults_witness :
    pdfParams decimalFloat exampleRequest =
      { PaperWidth := 8.5, PaperHeight := 11, MarginTop := 10 / 25.4, MarginBottom := 10 / 25.4,
        MarginLeft := 10 / 25.4, MarginRight := 10 / 25.4, Landscape := false,
        PrintBackground := true } :=
  (pdfParams_defaults decimalFloat exampleRequest
    ⟨rfl, rfl, rfl, rfl, rfl, rfl, rfl⟩).1

/-- C8: whenever `convertToPDF` returns an error, its byte result is nil (of
length 0), whatever the print step had assigned to the buffer; whenever it
returns no error, the bytes are exactly what the print step, the last task of
the list, returned without error. -/
theorem convertToPDF_error_gives_nil (cf : String → Option F64) (w : World) (fs : FS)
    (req : generatePDFRequestV1) :
    ((convertToPDF cf w fs req).err ≠ none →
        (convertToPDF cf w fs req).pdf = none ∧ len (convertToPDF cf w fs req).pdf = 0) ∧
      ((convertToPDF cf w fs req).err = none →
        ∃ (fsr : FS) (tasks : List Action),
          (convertToPDF cf w fs req).tasks = some tasks ∧
          tasks.getLast? = some (Action.ActionFunc (pdfParams cf req)) ∧
          (w.browser (convertToPDF cf w fs req).deadline fsr).print (tasks.length - 1)
            (pdfParams cf req) = ((convertToPDF cf w fs req).pdf, none)) := by
  have hnil : ∀ o : Outcome, o.pdf = none → o.pdf = none ∧ len o.pdf = 0 := by
    intro o h
    exact ⟨h, by rw [h]; rfl⟩
  have hfrom : ∀ (fsr : FS) (target : String),
      (convertFrom cf w fsr req target).err = none →
        (convertFrom cf w fsr req target).tasks = some (buildTasks cf req target) ∧
        (buildTasks cf req target).getLast? = some (Action.ActionFunc (pdfParams cf req)) ∧
        (w.browser (convertFrom cf w fsr req target).deadline fsr).print
          ((buildTasks cf req target).length - 1) (pdfParams cf req) =
            ((convertFrom cf w fsr req target).pdf, none) := by
    intro fsr target herr
    refine ⟨(convertFrom_tasks cf w fsr req target).1, ?_, ?_⟩
    · rw [buildTasks_eq]
      exact List.getLast?_concat _
    · rw [(convertFrom_tasks cf w fsr req target).2.2]
      exact ((convertFrom_results cf w fsr req target).2 herr).2
  by_cases hweb : req.Method = "web"
  · rw [convertToPDF_web cf w fs req hweb]
    refine ⟨fun h => hnil _ ((convertFrom_results cf w fs req _).1 h), fun h => ?_⟩
    exact ⟨fs, _, hfrom fs _ h⟩
  · unfold convertToPDF
    simp only [hweb, if_false]
    cases hct : w.CreateTemp fs with
    | error e => exact ⟨fun _ => hnil _ rfl, fun h => by simp at h⟩
    | ok name =>
      simp only []
      cases hwr : (w.Write name req.Content).2 with
      | some e => exact ⟨fun _ => hnil _ rfl, fun h => by simp at h⟩
      | none =>
        simp only []
        refine ⟨fun h => hnil _ ((convertFrom_results cf w _ req _).1 h), fun h => ?_⟩
        exact ⟨_, _, hfrom _ _ h⟩

/-- Witness of C8: in a world whose print step hands back two bytes together
with an error the result is nil with an error, and in a world where everything
succeeds the result is the four bytes of the print step. -/
theorem convertToPDF_error_gives_nil_witness :
    (convertToPDF decimalFloat exampleFailingWorld exampleFS exampleRequest).err ≠ none ∧
      (convertToPDF decimalFloat exampleFailingWorld exampleFS exampleRequest).pdf = none ∧
      (convertToPDF decimalFloat exampleWorld exampleFS exampleRequest).err = none ∧
      (convertToPDF decimalFloat exampleWorld exampleFS exampleRequest).pdf =
        some [37, 80, 68, 70] := by
  have herr : (convertToPDF decimalFloat exampleFailingWorld exampleFS exampleRequest).err
      ≠ none := by
    simp [convertToPDF, convertFrom, exampleRequest, exampleFailingWorld, exampleWorld, Run,
      buildTasks, Tasks.Do, Action.Do]
  have hok : (convertToPDF decimalFloat exampleWorld exampleFS exampleRequest).err = none ∧
      (convertToPDF decimalFloat exampleWorld exampleFS exampleRequest).pdf =
        some [37, 80, 68, 70] := by
    simp [convertToPDF, convertFrom, exampleRequest, exampleWorld, Run,
      buildTasks, Tasks.Do, Action.Do]
  exact ⟨herr,
    ((convertToPDF_error_gives_nil decimalFloat exampleFailingWorld exampleFS
      exampleRequest).1 herr).1, hok.1, hok.2⟩

/-- C9: when `os.CreateTemp` returns the name of a file that did not exist, the
filesystem after `convertToPDF` is the filesystem before it, on every path: the
temporary file of a request whose method is not `web` is absent when the call
returns, and for the method `web` the call does not depend on `os.CreateTemp`
or on `Write` at all (no temporary file is created). -/
theorem convertToPDF_restores_filesystem (cf : String → Option F64) (w : World) (fs : FS)
    (req : generatePDFRequestV1)
    (hfresh : ∀ name, w.CreateTemp fs = Except.ok name → ∀ f ∈ fs, f.name ≠ name) :
    (convertToPDF cf w fs req).fs = fs ∧
      (req.Method ≠ "web" → ∀ name, w.CreateTemp fs = Except.ok name →
        ∀ f ∈ (convertToPDF cf w fs req).fs, f.name ≠ name) ∧
      (req.Method = "web" → ∀ w1 : World, w1.browser = w.browser →
        convertToPDF cf w1 fs req = convertToPDF cf w fs req) := by
  have hfs : (convertToPDF cf w fs req).fs = fs := by
    by_cases hweb : req.Method = "web"
    · rw [convertToPDF_web cf w fs req hweb]
      exact (convertFrom_tasks cf w fs req _).2.1
    · unfold convertToPDF
      simp only [hweb, if_false]
      cases hct : w.CreateTemp fs with
      | error e => rfl
      | ok name =>
        simp only []
        cases hwr : (w.Write name req.Content).2 with
        | some e => exact Remove_write_create fs name _ (hfresh name hct)
        | none =>
          simp only []
          rw [(convertFrom_tasks cf w _ req _).2.1]
          exact Remove_write_create fs name _ (hfresh name hct)
  refine ⟨hfs, ?_, ?_⟩
  · intro _ name hct f hf
    rw [hfs] at hf
    exact hfresh name hct f hf
  · intro hweb w1 hb
    rw [convertToPDF_web cf w fs req hweb, convertToPDF_web cf w1 fs req hweb]
    unfold convertFrom
    rw [hb]

/-- Witness of C9: on a filesystem with one file, a successful conversion and a
conversion whose write fails both leave exactly that file. -/
theorem convertToPDF_restores_filesystem_witness :
    (∀ name, exampleWorld.CreateTemp exampleFS = Except.ok name →
        ∀ f ∈ exampleFS, f.name ≠ name) ∧
      (convertToPDF decimalFloat exampleWorld exampleFS exampleRequest).fs = exampleFS ∧
      (convertToPDF decimalFloat exampleFullDiskWorld exampleFS exampleRequest).fs = exampleFS ∧
      (convertToPDF decimalFloat exampleFullDiskWorld exampleFS exampleRequest).err =
        some "write HTML: no space left on device" :=
  ⟨exampleWorld_fresh exampleWorld rfl,
    (convertToPDF_restores_filesystem decimalFloat exampleWorld exampleFS exampleRequest
      (exampleWorld_fresh exampleWorld rfl)).1,
    (convertToPDF_restores_filesystem decimalFloat exampleFullDiskWorld exampleFS exampleRequest
      (exampleWorld_fresh exampleFullDiskWorld rfl)).1,
    by simp [convertToPDF, exampleRequest, exampleFullDiskWorld, exampleWorld]⟩

end GoHtml
